import Mathlib

/-!
Verification of the multi-source bond aggregation-and-caching engine
(backend/app/services of the screener repository).

The Python services are shallowly embedded as executable Lean functions:

* JSON numbers are modelled as `ℚ`, JSON primitive values by `CVal`,
  JSON objects (Python dicts) by association lists `Dict`.
* Calendar dates are modelled as integer day ordinals; `(d2 - d1).days`
  becomes integer subtraction.  The textual date format of the cache files
  is abstracted by a parse function `String → Option ℤ` (and, where the
  code writes today's date back, a formatting function `ℤ → String`).
* Network and file-system effects are passed in explicitly: a fetch
  outcome value describes what the origin returned, cache files are
  explicit values threaded through the functions.
* Python attribute assignment on the pydantic record objects is modelled
  as a functional record update.
-/

namespace Screener

/-! ### JSON-ish values and dictionaries -/

/-- A JSON primitive value as it appears in the cached payloads. -/
inductive CVal where
  | num (q : ℚ)
  | str (s : String)
  | boolean (b : Bool)
  | null
  deriving DecidableEq

/-- A JSON object / Python dict: an association list keyed by strings
(first binding wins, as for Python dict lookup after our `dictSet`). -/
abbrev Dict := List (String × CVal)

/-- `d.get(k)`: `none` models an absent key (Python returns `None` for
both an absent key and an explicit `null`; the two are distinguished
here by `some CVal.null` vs `none` only where the source distinguishes
`in`-tests from `.get`). -/
def dictGet (d : Dict) (k : String) : Option CVal :=
  (d.find? (fun p => p.1 = k)).map (fun p => p.2)

/-- `k in d` (Python membership test on a dict). -/
def dictHas (d : Dict) (k : String) : Bool :=
  (d.find? (fun p => p.1 = k)).isSome

/-- `d[k] = v`: replace the binding of `k` (or add it). -/
def dictSet (d : Dict) (k : String) (v : CVal) : Dict :=
  if dictHas d k then d.map (fun p => if p.1 = k then (k, v) else p)
  else d ++ [(k, v)]

/-- Python truthiness of a JSON primitive. -/
def truthy : CVal → Bool
  | .num q => q ≠ 0
  | .str s => s ≠ ""
  | .boolean b => b
  | .null => false

/-! ### Staleness policy (coupon_service._is_data_stale,
rating_service._is_data_stale)

`parse` abstracts `datetime.strptime(·, "%Y-%m-%d")` /
`date.fromisoformat`: it yields the day ordinal of the parsed date or
`none` when parsing raises.  `today` is the day ordinal of
`date.today()`. -/

/-- `CouponService.STALE_DAYS`. -/
def CouponService.STALE_DAYS : ℤ := 14

/-- `CouponService._is_data_stale`: data older than `STALE_DAYS` days,
unparseable dates count as stale. -/
def CouponService.is_data_stale (parse : String → Option ℤ) (today : ℤ)
    (last_updated : String) : Bool :=
  match parse last_updated with
  | none => true
  | some last_date => today - last_date > CouponService.STALE_DAYS

/-- `RatingService._is_data_stale`: data older than 30 days,
unparseable dates count as stale. -/
def RatingService.is_data_stale (parse : String → Option ℤ) (today : ℤ)
    (last_updated : String) : Bool :=
  match parse last_updated with
  | none => true
  | some last_date => today - last_date > 30

end Screener

namespace Screener

/-! ### Coupon-type classifier (CouponService.detect_coupon_type) -/

/-- Banker's rounding to an integer (Python's `round` rounds ties to the
even choice). -/
def roundHalfEven (x : ℚ) : ℤ :=
  let f := ⌊x⌋
  let r := x - (f : ℚ)
  if r < 1/2 then f
  else if 1/2 < r then f + 1
  else if f % 2 = 0 then f else f + 1

/-- `round(v, 2)`: round to two decimal places. -/
def round2 (v : ℚ) : ℚ := (roundHalfEven (v * 100) : ℚ) / 100

/-- The payment extracted from one coupon record:
`c.get("value")` when it is a (non-null) number. -/
def couponValue (c : Dict) : Option ℚ :=
  match dictGet c "value" with
  | some (.num q) => some q
  | _ => none

/-- The count of the most frequent element
(`Counter(rounded).most_common(1)[0][1]`). -/
def mostCommonCount (l : List ℚ) : ℕ :=
  (l.map (fun v => l.count v)).foldr Nat.max 0

/-- The number of adjacent transitions larger than the noise threshold
(`for prev, cur in zip(rounded, rounded[1:]): if abs(cur-prev) > 0.10`). -/
def adjChanges : List ℚ → ℕ
  | [] => 0
  | [_] => 0
  | a :: b :: rest => (if |b - a| > 1/10 then 1 else 0) + adjChanges (b :: rest)

/-- `CouponService.detect_coupon_type`, translated clause by clause. -/
def detect_coupon_type (coupons : List Dict) : String :=
  let payments := coupons.filterMap couponValue
  if payments.length < 4 then "FIX"
  else
    let rounded := payments.map round2
    let unique_count := rounded.dedup.length
    if unique_count = 1 then "FIX"
    else
      let total := rounded.length
      let share_most_common : ℚ := (mostCommonCount rounded : ℚ) / (total : ℚ)
      let changes := adjChanges rounded
      if share_most_common ≥ 4/5 ∧ changes ≤ 2 then "FIX"
      else "FLOAT"

/-- The classification rule exactly as the claim states it: below 4
payments "FIX"; otherwise "FIX" iff the dominant share of the rounded
payments is at least 0.8 and there are at most 2 adjacent transitions
of more than 0.10. -/
def claimCouponLabel (coupons : List Dict) : String :=
  let payments := coupons.filterMap couponValue
  if payments.length < 4 then "FIX"
  else
    let rounded := payments.map round2
    if (mostCommonCount rounded : ℚ) / (rounded.length : ℚ) ≥ 4/5 ∧
        adjChanges rounded ≤ 2 then "FIX"
    else "FLOAT"

end Screener

namespace Screener

/-! ### Helper lemmas for the classifier -/

theorem foldr_max_le {l : List ℕ} {K : ℕ} (h : ∀ x ∈ l, x ≤ K) :
    l.foldr Nat.max 0 ≤ K := by
  induction l with
  | nil => simp
  | cons a t ih =>
    simp only [List.foldr_cons]
    exact Nat.max_le.mpr ⟨h a (by simp), ih (fun x hx => h x (by simp [hx]))⟩

theorem le_foldr_max {l : List ℕ} {x : ℕ} (h : x ∈ l) :
    x ≤ l.foldr Nat.max 0 := by
  induction l with
  | nil => simp at h
  | cons a t ih =>
    simp only [List.foldr_cons]
    rcases List.mem_cons.mp h with h | h
    · exact h ▸ Nat.le_max_left _ _
    · exact (ih h).trans (Nat.le_max_right _ _)

theorem mostCommonCount_le_length (l : List ℚ) :
    mostCommonCount l ≤ l.length := by
  refine foldr_max_le ?_
  intro x hx
  obtain ⟨v, _, rfl⟩ := List.mem_map.mp hx
  exact List.count_le_length v l

theorem count_le_mostCommonCount {l : List ℚ} {x : ℚ} (h : x ∈ l) :
    l.count x ≤ mostCommonCount l := by
  exact le_foldr_max (List.mem_map.mpr ⟨x, h, rfl⟩)

theorem mostCommonCount_of_const {l : List ℚ} {a : ℚ}
    (hne : l ≠ []) (h : ∀ x ∈ l, x = a) :
    mostCommonCount l = l.length := by
  have ha : a ∈ l := by
    obtain ⟨b, t, rfl⟩ := List.exists_cons_of_ne_nil hne
    have : b = a := h b (by simp)
    simp [this]
  have hcount : l.count a = l.length :=
    List.count_eq_length.mpr (fun b hb => (h b hb).symm)
  exact le_antisymm (mostCommonCount_le_length l)
    (hcount ▸ count_le_mostCommonCount ha)

theorem adjChanges_of_const :
    ∀ (l : List ℚ) (a : ℚ), (∀ x ∈ l, x = a) → adjChanges l = 0
  | [], _, _ => rfl
  | [_], _, _ => rfl
  | x :: y :: rest, a, h => by
    have hx : x = a := h x (by simp)
    have hy : y = a := h y (by simp)
    have hd : |y - x| = 0 := by rw [hx, hy]; simp
    have ih := adjChanges_of_const (y :: rest) a
      (fun z hz => h z (List.mem_cons_of_mem x hz))
    simp [adjChanges, hd, ih]

theorem dedup_replicate {a : ℚ} : ∀ {n : ℕ}, n ≠ 0 →
    (List.replicate n a).dedup = [a] := by
  intro n
  induction n with
  | zero => intro h; exact absurd rfl h
  | succ m ih =>
    intro _
    rcases Nat.eq_zero_or_pos m with hm | hm
    · subst hm; simp
    · rw [List.replicate_succ, List.dedup_cons_of_mem
        (by simp [List.mem_replicate]; omega)]
      exact ih (by omega)

end Screener

namespace Screener

theorem abs_roundHalfEven_sub (z : ℚ) : |(roundHalfEven z : ℚ) - z| ≤ 1/2 := by
  unfold roundHalfEven
  have h0 : (⌊z⌋ : ℚ) ≤ z := Int.floor_le z
  have h1 : z < (⌊z⌋ : ℚ) + 1 := Int.lt_floor_add_one z
  by_cases hlt : z - (⌊z⌋ : ℚ) < 1/2
  · simp only [hlt, if_true]
    rw [abs_sub_comm, abs_of_nonneg (by linarith)]
    linarith
  · by_cases hgt : 1/2 < z - (⌊z⌋ : ℚ)
    · simp only [hlt, hgt, if_false, if_true]
      push_cast
      rw [abs_of_nonneg (by linarith)]
      linarith
    · have heq : z - (⌊z⌋ : ℚ) = 1/2 := le_antisymm (not_lt.mp hgt) (not_lt.mp hlt)
      by_cases hev : ⌊z⌋ % 2 = 0
      · simp only [hlt, hgt, hev, if_false, if_true]
        rw [abs_sub_comm, abs_of_nonneg (by linarith)]
        linarith
      · simp only [hlt, hgt, hev, if_false]
        push_cast
        rw [abs_of_nonneg (by linarith)]
        linarith

theorem abs_round2_sub (v : ℚ) : |round2 v - v| ≤ 1/200 := by
  unfold round2
  have h := abs_roundHalfEven_sub (v * 100)
  have : (roundHalfEven (v * 100) : ℚ) / 100 - v
      = ((roundHalfEven (v * 100) : ℚ) - v * 100) / 100 := by ring
  rw [this, abs_div, abs_of_pos (by norm_num : (0:ℚ) < 100)]
  rw [div_le_div_iff₀ (by norm_num) (by norm_num)]
  linarith

theorem round2_ne_of_far {x y : ℚ} (h : |x - y| > 1/10) : round2 x ≠ round2 y := by
  intro hEq
  have hx := abs_round2_sub x
  have hy := abs_round2_sub y
  have : |x - y| ≤ |x - round2 x| + |round2 y - y| := by
    calc |x - y| = |(x - round2 x) + (round2 y - y)| := by rw [hEq]; ring_nf
    _ ≤ |x - round2 x| + |round2 y - y| := abs_add _ _
  rw [abs_sub_comm x (round2 x)] at this
  linarith

/-- The strictly alternating payment sequence `x, y, x, y, …` of length `n`. -/
def altSeq (x y : ℚ) : ℕ → List ℚ
  | 0 => []
  | n + 1 => x :: altSeq y x n

theorem length_altSeq : ∀ (n : ℕ) (x y : ℚ), (altSeq x y n).length = n
  | 0, _, _ => rfl
  | n + 1, x, y => by simp [altSeq, length_altSeq n y x]

theorem map_altSeq (f : ℚ → ℚ) :
    ∀ (n : ℕ) (x y : ℚ), (altSeq x y n).map f = altSeq (f x) (f y) n
  | 0, _, _ => rfl
  | n + 1, x, y => by simp [altSeq, map_altSeq f n y x]

theorem count_altSeq {x y : ℚ} (hxy : x ≠ y) :
    ∀ n : ℕ, (altSeq x y n).count x = (n + 1) / 2 ∧ (altSeq x y n).count y = n / 2 := by
  intro n
  induction n generalizing x y with
  | zero => simp [altSeq]
  | succ m ih =>
    obtain ⟨h1, h2⟩ := ih (x := y) (y := x) hxy.symm
    constructor
    · rw [altSeq, List.count_cons_self, h2]
      omega
    · rw [altSeq, List.count_cons_of_ne hxy.symm, h1]

theorem mem_altSeq {z x y : ℚ} :
    ∀ {n : ℕ}, z ∈ altSeq x y n → z = x ∨ z = y := by
  intro n
  induction n generalizing x y with
  | zero => intro h; simp [altSeq] at h
  | succ m ih =>
    intro h
    rw [altSeq, List.mem_cons] at h
    rcases h with h | h
    · exact Or.inl h
    · exact (ih h).symm

theorem count_altSeq_le {x y : ℚ} (hxy : x ≠ y) (n : ℕ) (z : ℚ) :
    (altSeq x y n).count z ≤ (n + 1) / 2 := by
  by_cases hz : z ∈ altSeq x y n
  · rcases mem_altSeq hz with rfl | rfl
    · exact (count_altSeq hxy n).1.le
    · rw [(count_altSeq hxy n).2]; omega
  · rw [List.count_eq_zero_of_not_mem hz]; omega

end Screener

namespace Screener

theorem couponValue_single (v : ℚ) :
    couponValue [("value", CVal.num v)] = some v := rfl

theorem filterMap_couponValue_map (l : List ℚ) :
    (l.map (fun v => [("value", CVal.num v)])).filterMap couponValue = l := by
  induction l with
  | nil => rfl
  | cons a t ih => simp [List.filterMap_cons, couponValue_single, ih]

theorem head_mem_altSeq {x y : ℚ} {n : ℕ} (h : 1 ≤ n) : x ∈ altSeq x y n := by
  obtain ⟨m, rfl⟩ : ∃ m, n = m + 1 := ⟨n - 1, by omega⟩
  rw [altSeq]
  exact List.mem_cons_self x _

theorem snd_mem_altSeq {x y : ℚ} {n : ℕ} (h : 2 ≤ n) : y ∈ altSeq x y n := by
  obtain ⟨m, rfl⟩ : ∃ m, n = m + 2 := ⟨n - 2, by omega⟩
  rw [altSeq, altSeq]
  simp

theorem mostCommonCount_altSeq_le {x y : ℚ} (hxy : x ≠ y) (n : ℕ) :
    mostCommonCount (altSeq x y n) ≤ (n + 1) / 2 := by
  refine foldr_max_le ?_
  intro c hc
  obtain ⟨z, _, rfl⟩ := List.mem_map.mp hc
  exact count_altSeq_le hxy n z

end Screener

namespace Screener

/-- C3: the coupon-type classifier agrees everywhere with the
claim's rule (fewer than 4 payments → "FIX"; otherwise "FIX" iff the
dominant rounded value has share ≥ 0.8 and there are at most 2 adjacent
jumps above 0.10); a constant sequence of length ≥ 4 is classified
"FIX"; an alternating sequence between two values more than 0.10 apart
of length ≥ 4 is classified "FLOAT".  (Determinism is immediate: the
classifier is a pure function of the payment sequence.) -/
theorem c3_detect_coupon_type :
    (∀ coupons : List Dict, detect_coupon_type coupons = claimCouponLabel coupons)
    ∧ (∀ (q : ℚ) (n : ℕ), 4 ≤ n →
        detect_coupon_type (List.replicate n [("value", CVal.num q)]) = "FIX")
    ∧ (∀ (x y : ℚ) (n : ℕ), 4 ≤ n → |x - y| > 1/10 →
        detect_coupon_type ((altSeq x y n).map (fun v => [("value", CVal.num v)]))
          = "FLOAT") := by
  refine ⟨?_, ?_, ?_⟩
  · intro coupons
    by_cases h4 : (coupons.filterMap couponValue).length < 4
    · simp [detect_coupon_type, claimCouponLabel, h4]
    · by_cases h1 : ((coupons.filterMap couponValue).map round2).dedup.length = 1
      · obtain ⟨a, ha⟩ := List.length_eq_one.mp h1
        have hall : ∀ z ∈ (coupons.filterMap couponValue).map round2, z = a := by
          intro z hz
          have hmem : z ∈ ((coupons.filterMap couponValue).map round2).dedup :=
            List.mem_dedup.mpr hz
          rw [ha] at hmem
          simpa using hmem
        have hne : (coupons.filterMap couponValue).map round2 ≠ [] := by
          intro h0
          rw [h0] at ha
          simp at ha
        have hmcc := mostCommonCount_of_const hne hall
        have hch := adjChanges_of_const _ a hall
        have hlenpos : 0 < ((coupons.filterMap couponValue).map round2).length :=
          List.length_pos.mpr hne
        have hcond : (4:ℚ)/5 ≤ (mostCommonCount ((coupons.filterMap couponValue).map round2) : ℚ)
            / (((coupons.filterMap couponValue).map round2).length : ℚ) := by
          rw [hmcc, div_self (by positivity)]
          norm_num
        simp only [detect_coupon_type, claimCouponLabel, h4, if_false, h1, if_true,
          ge_iff_le]
        rw [if_pos ⟨hcond, by omega⟩]
      · simp [detect_coupon_type, claimCouponLabel, h4, h1]
  · intro q n hn
    have hrep : List.replicate n ([("value", CVal.num q)] : Dict)
        = (List.replicate n q).map (fun v => [("value", CVal.num v)]) := by
      rw [List.map_replicate]
    have hfm : (List.replicate n ([("value", CVal.num q)] : Dict)).filterMap couponValue
        = List.replicate n q := by
      rw [hrep]
      exact filterMap_couponValue_map _
    have h4 : ¬ (List.replicate n q).length < 4 := by
      simp only [List.length_replicate]
      omega
    simp [detect_coupon_type, hfm, h4, List.map_replicate,
      dedup_replicate (show n ≠ 0 by omega)]
  · intro x y n hn hfar
    have hab : round2 x ≠ round2 y := round2_ne_of_far hfar
    have hfm : ((altSeq x y n).map (fun v => [("value", CVal.num v)])).filterMap couponValue
        = altSeq x y n := filterMap_couponValue_map _
    have hlen : (altSeq x y n).length = n := length_altSeq n x y
    have h4 : ¬ (altSeq x y n).length < 4 := by omega
    have hmap : (altSeq x y n).map round2 = altSeq (round2 x) (round2 y) n :=
      map_altSeq round2 n x y
    have hdedup : (altSeq (round2 x) (round2 y) n).dedup.length ≠ 1 := by
      intro h1
      obtain ⟨c, hc⟩ := List.length_eq_one.mp h1
      have hallc : ∀ z ∈ altSeq (round2 x) (round2 y) n, z = c := by
        intro z hz
        have hmem : z ∈ (altSeq (round2 x) (round2 y) n).dedup := List.mem_dedup.mpr hz
        rw [hc] at hmem
        simpa using hmem
      have hxa : round2 x = c := hallc _ (head_mem_altSeq (by omega))
      have hyb : round2 y = c := hallc _ (snd_mem_altSeq (by omega))
      exact hab (hxa.trans hyb.symm)
    have hmcc2 : 2 * mostCommonCount (altSeq (round2 x) (round2 y) n) ≤ n + 1 := by
      have := mostCommonCount_altSeq_le hab n
      omega
    have hshare : (mostCommonCount (altSeq (round2 x) (round2 y) n) : ℚ)
        / ((altSeq (round2 x) (round2 y) n).length : ℚ) < 4/5 := by
      rw [length_altSeq,
        div_lt_div_iff₀ (by exact_mod_cast (show 0 < n by omega)) (by norm_num)]
      have hnat : mostCommonCount (altSeq (round2 x) (round2 y) n) * 5 < 4 * n := by omega
      exact_mod_cast hnat
    simp only [detect_coupon_type, hfm, h4, if_false, hmap, hdedup, ge_iff_le]
    rw [if_neg]
    rintro ⟨hc, -⟩
    exact absurd hc (not_le.mpr hshare)

end Screener

namespace Screener

/-- Witness for C3 at concrete inputs: a constant sequence of four
payments of 5 is "FIX", and the alternation 1,2,1,2 is "FLOAT". -/
theorem c3_detect_coupon_type_witness :
    detect_coupon_type (List.replicate 4 [("value", CVal.num 5)]) = "FIX"
    ∧ detect_coupon_type ((altSeq 1 2 4).map (fun v => [("value", CVal.num v)]))
        = "FLOAT" :=
  ⟨c3_detect_coupon_type.2.1 5 4 (by norm_num),
   c3_detect_coupon_type.2.2 1 2 4 (by norm_num)
     (by rw [show (1:ℚ) - 2 = -1 by norm_num]; norm_num)⟩

/-- C4: a cache entry is stale exactly when its last-refresh date fails
to parse or lies strictly more than TTL days in the past (an age equal
to the TTL is not stale); the coupon cache uses a TTL of 14 days
(`STALE_DAYS`) and the rating cache a TTL of 30 days. -/
theorem c4_is_data_stale :
    (∀ (parse : String → Option ℤ) (today : ℤ) (last : String),
        CouponService.is_data_stale parse today last = true ↔
          parse last = none ∨ ∃ d, parse last = some d ∧ today - d > 14)
    ∧ (∀ (parse : String → Option ℤ) (today : ℤ) (last : String),
        RatingService.is_data_stale parse today last = true ↔
          parse last = none ∨ ∃ d, parse last = some d ∧ today - d > 30)
    ∧ CouponService.STALE_DAYS = 14 := by
  refine ⟨?_, ?_, rfl⟩ <;> intro parse today last
  · unfold CouponService.is_data_stale
    cases hp : parse last with
    | none => simp [hp]
    | some d => simp [hp, CouponService.STALE_DAYS]
  · unfold RatingService.is_data_stale
    cases hp : parse last with
    | none => simp [hp]
    | some d => simp [hp]

end Screener

namespace Screener

/-! ### Bond list records and the filter engine (bond_filter.py,
models/bond.py BondListItem, models/filters.py BondFilters) -/

/-- `BondListItem` (pydantic): the denormalized per-instrument row.
`BONDTYPE` and `COUPON_TYPE` are set by attribute assignment in the
loader and read by the filter; they are modelled as ordinary optional
fields. -/
structure BondListItem where
  SECID : String
  BOARDID : String
  SHORTNAME : String
  COUPONPERCENT : Option ℚ := none
  MATDATE : Option ℤ := none
  STATUS : Option String := none
  TRADINGSTATUS : Option String := none
  FACEVALUE : Option ℚ := none
  PREVPRICE : Option ℚ := none
  YIELDATPREVWAPRICE : Option ℚ := none
  NEXTCOUPON : Option ℤ := none
  BOARDNAME : Option String := none
  CALLOPTIONDATE : Option ℤ := none
  PUTOPTIONDATE : Option ℤ := none
  ACCRUEDINT : Option ℚ := none
  COUPONPERIOD : Option ℤ := none
  COUPONVALUE : Option ℚ := none
  DURATION : Option ℚ := none
  DURATIONWAPRICE : Option ℚ := none
  CURRENCYID : Option String := none
  FACEUNIT : Option String := none
  LISTLEVEL : Option ℤ := none
  RATING_AGENCY : Option String := none
  RATING_LEVEL : Option String := none
  BONDTYPE : Option String := none
  COUPON_TYPE : Option String := none
  deriving DecidableEq

/-- `BondFilters` (query parameters; only the fields the filter engine
reads). -/
structure BondFilters where
  coupon_min : Option ℚ := none
  coupon_max : Option ℚ := none
  yield_min : Option ℚ := none
  yield_max : Option ℚ := none
  coupon_yield_min : Option ℚ := none
  coupon_yield_max : Option ℚ := none
  matdate_from : Option ℤ := none
  matdate_to : Option ℤ := none
  listlevel : Option (List ℤ) := none
  faceunit : Option (List String) := none
  bondtype : Option (List String) := none
  coupon_type : Option (List String) := none
  rating_min : Option String := none
  rating_max : Option String := none

/-- One `if param is not None: filtered = [b for b in filtered if …]`
block of `filter_bonds`. -/
def optFilter {α : Type} (o : Option α) (p : α → BondListItem → Bool)
    (l : List BondListItem) : List BondListItem :=
  match o with
  | none => l
  | some a => l.filter (p a)

/-- One `if param: filtered = …` block guarded by list truthiness
(`None` and the empty list both skip the filter). -/
def listOptFilter {α : Type} (o : Option (List α))
    (p : List α → BondListItem → Bool) (l : List BondListItem) :
    List BondListItem :=
  match o with
  | none => l
  | some [] => l
  | some xs => l.filter (p xs)

/-- `calc_coupon_yield`:
`(COUPONVALUE * 10000 / (PREVPRICE * FACEVALUE)) * (365 / COUPONPERIOD)`
when all inputs are present and positive. -/
def calc_coupon_yield (b : BondListItem) : Option ℚ :=
  match b.COUPONVALUE, b.PREVPRICE, b.FACEVALUE, b.COUPONPERIOD with
  | some cv, some pp, some fv, some cp =>
      if 0 < pp ∧ 0 < fv ∧ 0 < cp then
        some ((cv * 10000 / (pp * fv)) * (365 / (cp : ℚ)))
      else none
  | _, _, _, _ => none

/-- `b.COUPONPERCENT and b.COUPONPERCENT >= coupon_min` (Python
truthiness: `None` and `0` are both falsy). -/
def couponMinPred (q : ℚ) (b : BondListItem) : Bool :=
  match b.COUPONPERCENT with
  | none => false
  | some v => decide (v ≠ 0 ∧ q ≤ v)

/-- `b.COUPONPERCENT and b.COUPONPERCENT <= coupon_max`. -/
def couponMaxPred (q : ℚ) (b : BondListItem) : Bool :=
  match b.COUPONPERCENT with
  | none => false
  | some v => decide (v ≠ 0 ∧ v ≤ q)

/-- `b.YIELDATPREVWAPRICE and b.YIELDATPREVWAPRICE >= yield_min`. -/
def yieldMinPred (q : ℚ) (b : BondListItem) : Bool :=
  match b.YIELDATPREVWAPRICE with
  | none => false
  | some v => decide (v ≠ 0 ∧ q ≤ v)

/-- `b.YIELDATPREVWAPRICE and b.YIELDATPREVWAPRICE <= yield_max`. -/
def yieldMaxPred (q : ℚ) (b : BondListItem) : Bool :=
  match b.YIELDATPREVWAPRICE with
  | none => false
  | some v => decide (v ≠ 0 ∧ v ≤ q)

/-- `(cy := calc_coupon_yield(b)) is not None and cy >= coupon_yield_min`. -/
def couponYieldMinPred (q : ℚ) (b : BondListItem) : Bool :=
  match calc_coupon_yield b with
  | none => false
  | some cy => decide (q ≤ cy)

/-- `(cy := calc_coupon_yield(b)) is not None and cy <= coupon_yield_max`. -/
def couponYieldMaxPred (q : ℚ) (b : BondListItem) : Bool :=
  match calc_coupon_yield b with
  | none => false
  | some cy => decide (cy ≤ q)

/-- `b.MATDATE and b.MATDATE >= matdate_from` (a date object is always
truthy, so this is a `None` check). -/
def matdateFromPred (d : ℤ) (b : BondListItem) : Bool :=
  match b.MATDATE with
  | none => false
  | some m => decide (d ≤ m)

/-- `b.MATDATE and b.MATDATE <= matdate_to`. -/
def matdateToPred (d : ℤ) (b : BondListItem) : Bool :=
  match b.MATDATE with
  | none => false
  | some m => decide (m ≤ d)

end Screener

namespace Screener

/-! ### Rating scale and whole-token rating matching (bond_filter.py) -/

/-- The fixed rating scale, best to worst (`RATINGS`). -/
def RATINGS : List String :=
  ["AAA",
   "AA+", "AA", "AA-",
   "A+", "A", "A-",
   "BBB+", "BBB", "BBB-",
   "BB+", "BB", "BB-",
   "B+", "B", "B-",
   "CCC+", "CCC", "CCC-",
   "CC", "C",
   "D"]

/-- `str.upper()` on the ASCII rating labels (character-wise
`Char.toUpper`). -/
def upperStr (s : String) : String := ⟨s.data.map Char.toUpper⟩

/-- The character class `[A-Z]`. -/
def isUpperAZ (c : Char) : Bool := 'A' ≤ c && c ≤ 'Z'

/-- `[^A-Z]` before the candidate label (or the start of the string,
`prev = none`). -/
def prevOk : Option Char → Bool
  | none => true
  | some c => ! isUpperAZ c

/-- `(?:[^A-Z+\x2d]|$)` after the candidate label. -/
def afterOk : List Char → Bool
  | [] => true
  | c :: _ => ! (isUpperAZ c || c == '+' || c == '-')

/-- Does `s` start with `lab`? -/
def startsWithChars : List Char → List Char → Bool
  | [], _ => true
  | _ :: _, [] => false
  | a :: la, b :: lb => a == b && startsWithChars la lb

/-- The label occurs at this exact position with a valid right
boundary. -/
def tokenAt (lab s : List Char) : Bool :=
  startsWithChars lab s && afterOk (s.drop lab.length)

/-- Scan of `re.search` for the pattern
`(?:^|[^A-Z])(lab)(?:[^A-Z+\x2d]|$)`: `prev` is the character before the
current position. -/
def tokenScan (lab : List Char) (prev : Option Char) : List Char → Bool
  | [] => false
  | c :: rest => (prevOk prev && tokenAt lab (c :: rest)) || tokenScan lab (some c) rest

/-- The compiled regex test on strings. -/
def tokenOccurs (lab s : String) : Bool := tokenScan lab.data none s.data

/-- `is_rating_in_range` from `filter_bonds`: some label with ordinal
position in `[min_idx, max_idx]` occurs in the (upper-cased) rating
string as a whole token. -/
def is_rating_in_range (min_idx max_idx : ℕ) (rl : Option String) : Bool :=
  match rl with
  | none => false
  | some r =>
    if r = "" then false
    else
      (List.range' min_idx (max_idx + 1 - min_idx)).any
        (fun k => tokenOccurs (RATINGS.getD k "") (upperStr r))

/-- `RATINGS.index(s.upper())`, `ValueError` as `none`. -/
def ratingIndexOf (s : String) : Option ℕ := RATINGS.indexOf? (upperStr s)

/-- The rating-range block of `filter_bonds`: resolve the two bounds to
scale indices (`ValueError` propagates as `Except.error`), then keep the
records whose rating matches the span. -/
def applyRatingRange (rmin rmax : Option String) (l : List BondListItem) :
    Except Unit (List BondListItem) :=
  match rmin, rmax with
  | none, none => .ok l
  | some s, none =>
    match ratingIndexOf s with
    | some mi =>
        .ok (l.filter (fun b =>
          is_rating_in_range mi (RATINGS.length - 1) b.RATING_LEVEL))
    | none => .error ()
  | none, some t =>
    match ratingIndexOf t with
    | some ma => .ok (l.filter (fun b => is_rating_in_range 0 ma b.RATING_LEVEL))
    | none => .error ()
  | some s, some t =>
    match ratingIndexOf s, ratingIndexOf t with
    | some mi, some ma =>
        .ok (l.filter (fun b => is_rating_in_range mi ma b.RATING_LEVEL))
    | none, _ => .error ()
    | some _, none => .error ()

/-- `b.LISTLEVEL is not None and b.LISTLEVEL in filters.listlevel`. -/
def listlevelPred (xs : List ℤ) (b : BondListItem) : Bool :=
  match b.LISTLEVEL with
  | none => false
  | some v => decide (v ∈ xs)

/-- `b.FACEUNIT is not None and b.FACEUNIT in filters.faceunit`. -/
def faceunitPred (xs : List String) (b : BondListItem) : Bool :=
  match b.FACEUNIT with
  | none => false
  | some v => decide (v ∈ xs)

/-- `b.BONDTYPE is not None and b.BONDTYPE in filters.bondtype`. -/
def bondtypePred (xs : List String) (b : BondListItem) : Bool :=
  match b.BONDTYPE with
  | none => false
  | some v => decide (v ∈ xs)

/-- `b.COUPON_TYPE is not None and b.COUPON_TYPE in filters.coupon_type`. -/
def couponTypePred (xs : List String) (b : BondListItem) : Bool :=
  match b.COUPON_TYPE with
  | none => false
  | some v => decide (v ∈ xs)

/-- `filter_bonds`: the predicate chain, in source order.  Only the
rating block can fail (an unknown rating bound raises in the source). -/
def filter_bonds (bonds : List BondListItem) (f : BondFilters) :
    Except Unit (List BondListItem) :=
  applyRatingRange f.rating_min f.rating_max
    (listOptFilter f.coupon_type couponTypePred
      (listOptFilter f.bondtype bondtypePred
        (listOptFilter f.faceunit faceunitPred
          (listOptFilter f.listlevel listlevelPred
            (optFilter f.matdate_to matdateToPred
              (optFilter f.matdate_from matdateFromPred
                (optFilter f.coupon_yield_max couponYieldMaxPred
                  (optFilter f.coupon_yield_min couponYieldMinPred
                    (optFilter f.yield_max yieldMaxPred
                      (optFilter f.yield_min yieldMinPred
                        (optFilter f.coupon_max couponMaxPred
                          (optFilter f.coupon_min couponMinPred bonds))))))))))))

end Screener

namespace Screener

/-! ### Filter-engine lemmas -/

theorem mem_of_mem_optFilter {α : Type} {o : Option α}
    {p : α → BondListItem → Bool} {l : List BondListItem} {b : BondListItem}
    (h : b ∈ optFilter o p l) : b ∈ l := by
  cases o with
  | none => exact h
  | some a => exact (List.mem_filter.mp h).1

theorem mem_of_mem_listOptFilter {α : Type} {o : Option (List α)}
    {p : List α → BondListItem → Bool} {l : List BondListItem} {b : BondListItem}
    (h : b ∈ listOptFilter o p l) : b ∈ l := by
  match o with
  | none => exact h
  | some [] => exact h
  | some (x :: xs) => exact (List.mem_filter.mp h).1

theorem mem_of_applyRatingRange_ok {rmin rmax : Option String}
    {l res : List BondListItem} {b : BondListItem}
    (hok : applyRatingRange rmin rmax l = .ok res) (h : b ∈ res) : b ∈ l := by
  match rmin, rmax with
  | none, none =>
    simp only [applyRatingRange] at hok
    cases hok
    exact h
  | none, some s =>
    simp only [applyRatingRange] at hok
    cases hma : ratingIndexOf s with
    | none => rw [hma] at hok; cases hok
    | some ma =>
      rw [hma] at hok
      cases hok
      exact (List.mem_filter.mp h).1
  | some s, none =>
    simp only [applyRatingRange] at hok
    cases hmi : ratingIndexOf s with
    | none => rw [hmi] at hok; cases hok
    | some mi =>
      rw [hmi] at hok
      cases hok
      exact (List.mem_filter.mp h).1
  | some s, some t =>
    simp only [applyRatingRange] at hok
    cases hmi : ratingIndexOf s with
    | none => rw [hmi] at hok; cases hok
    | some mi =>
      cases hma : ratingIndexOf t with
      | none => rw [hmi, hma] at hok; cases hok
      | some ma =>
        rw [hmi, hma] at hok
        cases hok
        exact (List.mem_filter.mp h).1

theorem mem_filter_bonds_ok {bonds : List BondListItem} {f : BondFilters}
    {res : List BondListItem} {b : BondListItem}
    (hok : filter_bonds bonds f = .ok res) (h : b ∈ res) :
    b ∈ optFilter f.coupon_min couponMinPred bonds
    ∧ b ∈ optFilter f.coupon_max couponMaxPred
        (optFilter f.coupon_min couponMinPred bonds)
    ∧ b ∈ optFilter f.yield_min yieldMinPred
        (optFilter f.coupon_max couponMaxPred
          (optFilter f.coupon_min couponMinPred bonds))
    ∧ b ∈ optFilter f.yield_max yieldMaxPred
        (optFilter f.yield_min yieldMinPred
          (optFilter f.coupon_max couponMaxPred
            (optFilter f.coupon_min couponMinPred bonds))) := by
  unfold filter_bonds at hok
  have h12 := mem_of_applyRatingRange_ok hok h
  have h11 := mem_of_mem_listOptFilter h12
  have h10 := mem_of_mem_listOptFilter h11
  have h9 := mem_of_mem_listOptFilter h10
  have h8 := mem_of_mem_listOptFilter h9
  have h7 := mem_of_mem_optFilter h8
  have h6 := mem_of_mem_optFilter h7
  have h5 := mem_of_mem_optFilter h6
  have h4 := mem_of_mem_optFilter h5
  have h3 := mem_of_mem_optFilter h4
  have h2 := mem_of_mem_optFilter h3
  have h1 := mem_of_mem_optFilter h2
  exact ⟨h1, h2, h3, h4⟩

end Screener

namespace Screener

/-- C10: a supplied coupon-rate bound keeps exactly the records whose
coupon rate is present, non-zero and inside the bound — a missing or
zero coupon rate is excluded even when 0 lies inside the requested
closed range — and the yield bounds apply the same truthiness guard;
consequently `filter_bonds` never returns such a record when the
corresponding bound is supplied. -/
theorem c10_zero_coupon_excluded :
    (∀ (bonds : List BondListItem) (q : ℚ) (b : BondListItem),
        b ∈ optFilter (some q) couponMinPred bonds ↔
          b ∈ bonds ∧ ∃ v, b.COUPONPERCENT = some v ∧ v ≠ 0 ∧ q ≤ v)
    ∧ (∀ (bonds : List BondListItem) (q : ℚ) (b : BondListItem),
        b ∈ optFilter (some q) couponMaxPred bonds ↔
          b ∈ bonds ∧ ∃ v, b.COUPONPERCENT = some v ∧ v ≠ 0 ∧ v ≤ q)
    ∧ (∀ (bonds : List BondListItem) (q : ℚ) (b : BondListItem),
        b ∈ optFilter (some q) yieldMinPred bonds ↔
          b ∈ bonds ∧ ∃ v, b.YIELDATPREVWAPRICE = some v ∧ v ≠ 0 ∧ q ≤ v)
    ∧ (∀ (bonds : List BondListItem) (q : ℚ) (b : BondListItem),
        b ∈ optFilter (some q) yieldMaxPred bonds ↔
          b ∈ bonds ∧ ∃ v, b.YIELDATPREVWAPRICE = some v ∧ v ≠ 0 ∧ v ≤ q)
    ∧ (∀ (bonds : List BondListItem) (f : BondFilters) (b : BondListItem)
          (res : List BondListItem),
        filter_bonds bonds f = .ok res →
        (f.coupon_min ≠ none ∨ f.coupon_max ≠ none) →
        (b.COUPONPERCENT = none ∨ b.COUPONPERCENT = some 0) →
        b ∉ res)
    ∧ (∀ (bonds : List BondListItem) (f : BondFilters) (b : BondListItem)
          (res : List BondListItem),
        filter_bonds bonds f = .ok res →
        (f.yield_min ≠ none ∨ f.yield_max ≠ none) →
        (b.YIELDATPREVWAPRICE = none ∨ b.YIELDATPREVWAPRICE = some 0) →
        b ∉ res) := by
  have hcmin : ∀ (bonds : List BondListItem) (q : ℚ) (b : BondListItem),
      b ∈ optFilter (some q) couponMinPred bonds ↔
        b ∈ bonds ∧ ∃ v, b.COUPONPERCENT = some v ∧ v ≠ 0 ∧ q ≤ v := by
    intro bonds q b
    rw [optFilter, List.mem_filter]
    cases hc : b.COUPONPERCENT with
    | none => simp [couponMinPred, hc]
    | some v => simp [couponMinPred, hc]
  have hcmax : ∀ (bonds : List BondListItem) (q : ℚ) (b : BondListItem),
      b ∈ optFilter (some q) couponMaxPred bonds ↔
        b ∈ bonds ∧ ∃ v, b.COUPONPERCENT = some v ∧ v ≠ 0 ∧ v ≤ q := by
    intro bonds q b
    rw [optFilter, List.mem_filter]
    cases hc : b.COUPONPERCENT with
    | none => simp [couponMaxPred, hc]
    | some v => simp [couponMaxPred, hc]
  have hymin : ∀ (bonds : List BondListItem) (q : ℚ) (b : BondListItem),
      b ∈ optFilter (some q) yieldMinPred bonds ↔
        b ∈ bonds ∧ ∃ v, b.YIELDATPREVWAPRICE = some v ∧ v ≠ 0 ∧ q ≤ v := by
    intro bonds q b
    rw [optFilter, List.mem_filter]
    cases hc : b.YIELDATPREVWAPRICE with
    | none => simp [yieldMinPred, hc]
    | some v => simp [yieldMinPred, hc]
  have hymax : ∀ (bonds : List BondListItem) (q : ℚ) (b : BondListItem),
      b ∈ optFilter (some q) yieldMaxPred bonds ↔
        b ∈ bonds ∧ ∃ v, b.YIELDATPREVWAPRICE = some v ∧ v ≠ 0 ∧ v ≤ q := by
    intro bonds q b
    rw [optFilter, List.mem_filter]
    cases hc : b.YIELDATPREVWAPRICE with
    | none => simp [yieldMaxPred, hc]
    | some v => simp [yieldMaxPred, hc]
  refine ⟨hcmin, hcmax, hymin, hymax, ?_, ?_⟩
  · intro bonds f b res hok hsup hbad hmem
    obtain ⟨h1, h2, -, -⟩ := mem_filter_bonds_ok hok hmem
    rcases hsup with hs | hs
    · obtain ⟨q, hq⟩ := Option.ne_none_iff_exists'.mp hs
      rw [hq] at h1
      obtain ⟨-, v, hv, hv0, -⟩ := (hcmin _ q b).mp h1
      rcases hbad with hb | hb <;> rw [hb] at hv <;> simp_all
    · obtain ⟨q, hq⟩ := Option.ne_none_iff_exists'.mp hs
      rw [hq] at h2
      obtain ⟨-, v, hv, hv0, -⟩ := (hcmax _ q b).mp h2
      rcases hbad with hb | hb <;> rw [hb] at hv <;> simp_all
  · intro bonds f b res hok hsup hbad hmem
    obtain ⟨-, -, h3, h4⟩ := mem_filter_bonds_ok hok hmem
    rcases hsup with hs | hs
    · obtain ⟨q, hq⟩ := Option.ne_none_iff_exists'.mp hs
      rw [hq] at h3
      obtain ⟨-, v, hv, hv0, -⟩ := (hymin _ q b).mp h3
      rcases hbad with hb | hb <;> rw [hb] at hv <;> simp_all
    · obtain ⟨q, hq⟩ := Option.ne_none_iff_exists'.mp hs
      rw [hq] at h4
      obtain ⟨-, v, hv, hv0, -⟩ := (hymax _ q b).mp h4
      rcases hbad with hb | hb <;> rw [hb] at hv <;> simp_all

end Screener

namespace Screener

/-- Witness for C10: with `coupon_min = 1` supplied, a record with
coupon rate 0 is not in the filter result. -/
theorem c10_zero_coupon_excluded_witness :
    ({ SECID := "S", BOARDID := "B", SHORTNAME := "N",
       COUPONPERCENT := some 0 } : BondListItem)
      ∉ ([] : List BondListItem) :=
  c10_zero_coupon_excluded.2.2.2.2.1
    [{ SECID := "S", BOARDID := "B", SHORTNAME := "N", COUPONPERCENT := some 0 }]
    { coupon_min := some 1 }
    { SECID := "S", BOARDID := "B", SHORTNAME := "N", COUPONPERCENT := some 0 }
    []
    (by rfl)
    (Or.inl (fun h => Option.noConfusion h))
    (Or.inr rfl)

/-! ### Whole-token matching, declaratively -/

/-- The left boundary condition relative to a prefix `pre` and the
character `prev` preceding the whole scanned suffix: either the label is
at the very start (then `prev` decides) or the character just before it
is not an uppercase letter. -/
def beforeOk (prev : Option Char) (pre : List Char) : Bool :=
  match pre.getLast? with
  | none => prevOk prev
  | some c => ! isUpperAZ c

theorem beforeOk_cons (prev : Option Char) (c : Char) (pre : List Char) :
    beforeOk prev (c :: pre) = beforeOk (some c) pre := by
  cases pre with
  | nil => rfl
  | cons d t =>
    show beforeOk prev (c :: d :: t) = beforeOk (some c) (d :: t)
    unfold beforeOk
    rw [List.getLast?_cons_cons]
    cases h : (d :: t).getLast? with
    | none => exact absurd (List.getLast?_eq_none_iff.mp h) (by simp)
    | some e => rfl

theorem startsWithChars_iff :
    ∀ (lab s : List Char), startsWithChars lab s = true ↔ ∃ post, s = lab ++ post
  | [], s => by simp [startsWithChars]
  | a :: la, [] => by
    simp only [startsWithChars]
    constructor
    · intro h; cases h
    · rintro ⟨post, hpost⟩; cases hpost
  | a :: la, b :: lb => by
    rw [startsWithChars, Bool.and_eq_true, beq_iff_eq, startsWithChars_iff la lb]
    constructor
    · rintro ⟨rfl, post, rfl⟩
      exact ⟨post, rfl⟩
    · rintro ⟨post, hpost⟩
      rw [List.cons_append] at hpost
      cases hpost
      exact ⟨rfl, post, rfl⟩

theorem tokenScan_iff {lab : List Char} (hlab : lab ≠ []) :
    ∀ (s : List Char) (prev : Option Char),
      tokenScan lab prev s = true ↔
        ∃ pre post, s = pre ++ lab ++ post ∧ beforeOk prev pre = true
          ∧ afterOk post = true := by
  intro s
  induction s with
  | nil =>
    intro prev
    simp only [tokenScan]
    constructor
    · intro h; cases h
    · rintro ⟨pre, post, heq, -, -⟩
      obtain ⟨c, t, rfl⟩ := List.exists_cons_of_ne_nil hlab
      cases pre <;> simp at heq
  | cons c rest ih =>
    intro prev
    rw [tokenScan, Bool.or_eq_true, Bool.and_eq_true, ih (some c)]
    constructor
    · rintro (⟨hp, ht⟩ | ⟨pre, post, heq, hb, ha⟩)
      · rw [tokenAt, Bool.and_eq_true] at ht
        obtain ⟨hs, hafter⟩ := ht
        obtain ⟨post, hpost⟩ := (startsWithChars_iff lab (c :: rest)).mp hs
        refine ⟨[], post, by simpa using hpost, ?_, ?_⟩
        · simpa [beforeOk] using hp
        · rwa [hpost, List.drop_left] at hafter
      · exact ⟨c :: pre, post, by simp [heq], by rwa [beforeOk_cons], ha⟩
    · rintro ⟨pre, post, heq, hb, ha⟩
      cases pre with
      | nil =>
        left
        simp only [List.nil_append] at heq
        refine ⟨by simpa [beforeOk] using hb, ?_⟩
        rw [tokenAt, Bool.and_eq_true]
        exact ⟨(startsWithChars_iff _ _).mpr ⟨post, heq⟩,
          by rw [heq, List.drop_left]; exact ha⟩
      | cons d pre' =>
        right
        obtain ⟨rfl, hrest⟩ : d = c ∧ rest = pre' ++ lab ++ post := by
          rw [List.cons_append, List.cons_append] at heq
          exact ⟨(List.cons.injEq _ _ _ _ ▸ heq).1.symm, by
            have := (List.cons.injEq _ _ _ _ ▸ heq).2
            simpa using this⟩
        exact ⟨pre', post, hrest, by rwa [beforeOk_cons] at hb, ha⟩

end Screener

namespace Screener

theorem ratings_data_ne_nil :
    ∀ k, k < RATINGS.length → (RATINGS.getD k "").data ≠ [] := by decide

/-- C6: a record passes the rating-range criterion for the ordinal span
`[mi, ma]` of the fixed scale iff some scale label with position in the
span occurs in the (upper-cased) rating string as a whole token — at a
position not preceded by an uppercase letter and not followed by an
uppercase letter, `+` or `-`, so never as a substring of a longer
label.  In particular `"A+(RU)"` matches the span AAA…A (positions
0–5) but not the span AAA…AA (positions 0–2), and `"AAA"` does not
match the single-label span `{A}` (position 5). -/
theorem c6_rating_range_matching :
    (∀ (mi ma : ℕ) (r : String), ma < RATINGS.length → r ≠ "" →
      (is_rating_in_range mi ma (some r) = true ↔
        ∃ k, mi ≤ k ∧ k ≤ ma ∧
          ∃ pre post, (upperStr r).data = pre ++ (RATINGS.getD k "").data ++ post
            ∧ beforeOk none pre = true ∧ afterOk post = true))
    ∧ is_rating_in_range 0 5 (some "A+(RU)") = true
    ∧ is_rating_in_range 0 2 (some "A+(RU)") = false
    ∧ is_rating_in_range 5 5 (some "AAA") = false := by
  refine ⟨?_, by decide, by decide, by decide⟩
  intro mi ma r hma hr
  simp only [is_rating_in_range]
  rw [if_neg hr, List.any_eq_true]
  have hmem : ∀ k : ℕ, k ∈ List.range' mi (ma + 1 - mi) ↔ (mi ≤ k ∧ k ≤ ma) := by
    intro k
    rw [List.mem_range'_1]
    omega
  constructor
  · rintro ⟨k, hk, htok⟩
    obtain ⟨h1, h2⟩ := (hmem k).mp hk
    rw [tokenOccurs, tokenScan_iff (ratings_data_ne_nil k (by omega))] at htok
    exact ⟨k, h1, h2, htok⟩
  · rintro ⟨k, h1, h2, pre, post, heq, hb, ha⟩
    refine ⟨k, (hmem k).mpr ⟨h1, h2⟩, ?_⟩
    rw [tokenOccurs, tokenScan_iff (ratings_data_ne_nil k (by omega))]
    exact ⟨pre, post, heq, hb, ha⟩

/-- Witness for C6 at a concrete span and rating string. -/
theorem c6_rating_range_matching_witness :
    is_rating_in_range 0 5 (some "A+(RU)") = true ↔
      ∃ k, 0 ≤ k ∧ k ≤ 5 ∧
        ∃ pre post, (upperStr "A+(RU)").data = pre ++ (RATINGS.getD k "").data ++ post
          ∧ beforeOk none pre = true ∧ afterOk post = true :=
  c6_rating_range_matching.1 0 5 "A+(RU)" (by decide) (by decide)

end Screener

namespace Screener

/-! ### Rating service (rating_service.py)

The two network steps are abstracted by oracles describing what the
origin returned: `HtmlStep` is the outcome of downloading the
instrument page and extracting the issuer id from it, `ApiStep` the
outcome of the rating API call and of the shape-sniffing JSON
extraction. -/

/-- Generic association-store lookup (Python dict `store.get(k)`). -/
def storeLookup {β : Type} (st : List (String × β)) (k : String) : Option β :=
  (st.find? (fun p => p.1 == k)).map (fun p => p.2)

/-- Generic association-store update (Python dict `store[k] = v`). -/
def storeInsert {β : Type} (st : List (String × β)) (k : String) (v : β) :
    List (String × β) :=
  (k, v) :: st.filter (fun p => !(p.1 == k))

theorem storeLookup_insert_self {β : Type} (st : List (String × β))
    (k : String) (v : β) : storeLookup (storeInsert st k v) k = some v := by
  unfold storeLookup storeInsert
  rw [List.find?_cons_of_pos _ (by simp)]
  rfl

/-- `RatingService._filter_rating_keys`: the five whitelisted fields. -/
def required_rating_keys : List String :=
  ["agency_id", "agency_name_short_ru", "rating_level_id", "rating_date",
   "rating_level_name_short_ru"]

/-- `{key: rating_item.get(key) for key in required_keys if key in rating_item}`. -/
def filter_rating_keys (rating_item : Dict) : Dict :=
  required_rating_keys.filterMap
    (fun k => (dictGet rating_item k).map (fun v => (k, v)))

/-- `RatingService._create_empty_rating`: the one-element placeholder. -/
def create_empty_rating : List Dict :=
  [[("agency_id", CVal.num 0),
    ("agency_name_short_ru", CVal.str ""),
    ("rating_level_id", CVal.num 0),
    ("rating_date", CVal.str ""),
    ("rating_level_name_short_ru", CVal.str "")]]

/-- A JSON value that the source checks with `isinstance(·, list)`. -/
inductive JList where
  | ok (l : List Dict)
  | notList
  deriving DecidableEq

/-- `ratings_list if isinstance(ratings_list, list) else []`. -/
def coerceList : JList → List Dict
  | .ok l => l
  | .notList => []

/-- One cached entry of `bonds_rating.json`, covering the formats
`get_rating` distinguishes. -/
inductive RatingEntry where
  | fmtNew (last_updated : String) (ratings : JList)
  | fmtOld (cci : JList)
  | fmtOtherDict
  | fmtList (l : List Dict)
  deriving DecidableEq

abbrev RatingStore := List (String × RatingEntry)

/-- Outcome of step 1+2 of `_fetch_rating_from_moex`: page download and
issuer-id extraction. -/
inductive HtmlStep where
  | fail
  | ok (emitent_id : Option String)
  deriving DecidableEq

/-- Outcome of the API call inside `_fetch_rating_via_api`:
request error, JSON decode error, unrecognizable payload shape, or the
extracted raw entries (`none` marks a non-dict entry, skipped). -/
inductive ApiStep where
  | reqFail
  | parseFail
  | shapeMiss
  | ok (items : List (Option Dict))
  deriving DecidableEq

structure FetchEnv where
  htmlStep : HtmlStep
  apiStep : ApiStep
  deriving DecidableEq

/-- The per-entry filtering loop of `_fetch_rating_via_api`: skip
non-dict entries, keep the whitelisted keys, drop entries that filter to
empty. -/
def api_filtered (items : List (Option Dict)) : List Dict :=
  items.filterMap (fun o => o.bind (fun d =>
    if filter_rating_keys d = [] then none else some (filter_rating_keys d)))

/-- `RatingService._fetch_rating_via_api` after the HTTP/JSON layer:
errors are raised (`Except.error`), an unrecognized shape yields `none`,
otherwise the entries are filtered to the whitelisted keys, empty
leftovers dropped, and an entirely-filtered-out list becomes the
placeholder. -/
def fetch_rating_via_api (step : ApiStep) : Except Unit (Option (List Dict)) :=
  match step with
  | .reqFail => .error ()
  | .parseFail => .error ()
  | .shapeMiss => .ok none
  | .ok items =>
    if items = [] then .ok none
    else if api_filtered items = [] then .ok (some create_empty_rating)
    else .ok (some (api_filtered items))

/-- `RatingService._fetch_rating_from_moex`: page download failure
raises; a missing issuer id or an unrecognizable API payload yields the
placeholder; API errors propagate. -/
def fetch_rating_from_moex (env : FetchEnv) : Except Unit (List Dict) :=
  match env.htmlStep with
  | .fail => .error ()
  | .ok none => .ok create_empty_rating
  | .ok (some _) =>
    match fetch_rating_via_api env.apiStep with
    | .error e => .error e
    | .ok none => .ok create_empty_rating
    | .ok (some l) => .ok l

structure GetRatingResult where
  ratings : List Dict
  store : RatingStore
  networkUsed : Bool
  deriving DecidableEq

/-- The refresh path of `get_rating`: fetch (any raised error is caught
and replaced by the placeholder), persist under today's date, return. -/
def RatingService.fetch_and_store (fmt : ℤ → String) (today : ℤ)
    (store : RatingStore) (secid : String) (env : FetchEnv) : GetRatingResult :=
  let fresh := match fetch_rating_from_moex env with
    | .error _ => create_empty_rating
    | .ok l => l
  { ratings := fresh,
    store := storeInsert store secid (.fmtNew (fmt today) (.ok fresh)),
    networkUsed := true }

/-- `RatingService.get_rating`, translated branch by branch. -/
def RatingService.get_rating (parse : String → Option ℤ) (fmt : ℤ → String)
    (today : ℤ) (store : RatingStore) (secid : String) (force_refresh : Bool)
    (env : FetchEnv) : GetRatingResult :=
  match storeLookup store secid with
  | some (.fmtNew last_updated ratings) =>
      if last_updated ≠ "" ∧
          RatingService.is_data_stale parse today last_updated = false then
        { ratings := coerceList ratings, store := store, networkUsed := false }
      else if force_refresh then
        RatingService.fetch_and_store fmt today store secid env
      else
        { ratings := coerceList ratings, store := store, networkUsed := false }
  | some (.fmtOld cci) =>
      if force_refresh then RatingService.fetch_and_store fmt today store secid env
      else { ratings := coerceList cci, store := store, networkUsed := false }
  | some .fmtOtherDict =>
      if force_refresh then RatingService.fetch_and_store fmt today store secid env
      else { ratings := create_empty_rating, store := store, networkUsed := false }
  | some (.fmtList l) =>
      if force_refresh then RatingService.fetch_and_store fmt today store secid env
      else { ratings := l, store := store, networkUsed := false }
  | none =>
      if force_refresh then RatingService.fetch_and_store fmt today store secid env
      else { ratings := create_empty_rating, store := store, networkUsed := false }

/-- The cached entry for `secid` is missing or stale (equivalently: the
entry is not a fresh new-format one, so a forced call takes the fetch
path). -/
def cacheMissingOrStale (parse : String → Option ℤ) (today : ℤ)
    (store : RatingStore) (secid : String) : Prop :=
  ∀ lu rl, storeLookup store secid = some (.fmtNew lu rl) →
    (lu = "" ∨ RatingService.is_data_stale parse today lu = true)

/-- The four failure categories of the claim: HTML download error, no
extractable issuer id, rating API error, unparseable/unrecognizable API
payload. -/
def fetchFailure (env : FetchEnv) : Prop :=
  env.htmlStep = .fail ∨ env.htmlStep = .ok none ∨
  env.apiStep = .reqFail ∨ env.apiStep = .parseFail ∨ env.apiStep = .shapeMiss

end Screener

namespace Screener

theorem fetch_fail_cases {env : FetchEnv} (h : fetchFailure env) :
    fetch_rating_from_moex env = .error () ∨
    fetch_rating_from_moex env = .ok create_empty_rating := by
  obtain ⟨hs, as⟩ := env
  cases hs with
  | fail => exact Or.inl rfl
  | ok oid =>
    cases oid with
    | none => exact Or.inr rfl
    | some i =>
      cases as with
      | reqFail => exact Or.inl rfl
      | parseFail => exact Or.inl rfl
      | shapeMiss => exact Or.inr rfl
      | ok items =>
        exfalso
        simp only [fetchFailure] at h
        rcases h with h | h | h | h | h <;> simp_all

theorem via_api_some_ne_nil {step : ApiStep} {l : List Dict}
    (h : fetch_rating_via_api step = .ok (some l)) : l ≠ [] := by
  cases step with
  | reqFail => exact absurd h (by simp [fetch_rating_via_api])
  | parseFail => exact absurd h (by simp [fetch_rating_via_api])
  | shapeMiss => exact absurd h (by simp [fetch_rating_via_api])
  | ok items =>
    rw [fetch_rating_via_api] at h
    by_cases hi : items = []
    · rw [if_pos hi] at h
      exact absurd h (by simp)
    · rw [if_neg hi] at h
      by_cases hf : api_filtered items = []
      · rw [if_pos hf] at h
        have hl : create_empty_rating = l := by simpa using h
        rw [← hl]
        simp [create_empty_rating]
      · rw [if_neg hf] at h
        have hl : api_filtered items = l := by simpa using h
        rw [← hl]
        exact hf

theorem fetch_from_moex_ok_ne_nil {env : FetchEnv} {l : List Dict}
    (h : fetch_rating_from_moex env = .ok l) : l ≠ [] := by
  obtain ⟨hs, as⟩ := env
  cases hs with
  | fail => exact absurd h (by simp [fetch_rating_from_moex])
  | ok oid =>
    cases oid with
    | none =>
      have hl : create_empty_rating = l := by
        simpa [fetch_rating_from_moex] using h
      rw [← hl]
      simp [create_empty_rating]
    | some i =>
      rw [fetch_rating_from_moex] at h
      cases hapi : fetch_rating_via_api as with
      | error e =>
        rw [hapi] at h
        exact absurd h (by simp)
      | ok o =>
        cases o with
        | none =>
          rw [hapi] at h
          have hl : create_empty_rating = l := by simpa using h
          rw [← hl]
          simp [create_empty_rating]
        | some l2 =>
          rw [hapi] at h
          have hl : l2 = l := by simpa using h
          rw [← hl]
          exact via_api_some_ne_nil hapi

theorem fetch_and_store_ratings_ne_nil (fmt : ℤ → String) (today : ℤ)
    (store : RatingStore) (secid : String) (env : FetchEnv) :
    (RatingService.fetch_and_store fmt today store secid env).ratings ≠ [] := by
  unfold RatingService.fetch_and_store
  cases hf : fetch_rating_from_moex env with
  | error e => simp [create_empty_rating]
  | ok l => simpa using fetch_from_moex_ok_ne_nil hf

end Screener

namespace Screener

/-- C1: a forced rating refresh on a missing/stale entry never
propagates a failure of the rating resolution: for each of the failure
categories the call returns the one-element placeholder, persists it
under today's date, and a following non-forced call within the 30-day
TTL window returns the cached placeholder with no network access. -/
theorem c1_rating_failure_never_propagates
    (parse : String → Option ℤ) (fmt : ℤ → String) (today today' : ℤ)
    (store : RatingStore) (secid : String) (env env' : FetchEnv)
    (hmiss : cacheMissingOrStale parse today store secid)
    (hfail : fetchFailure env)
    (hfmt : parse (fmt today) = some today)
    (hne : fmt today ≠ "")
    (httl : today' - today ≤ 30) :
    (RatingService.get_rating parse fmt today store secid true env).ratings
        = create_empty_rating
    ∧ storeLookup
        (RatingService.get_rating parse fmt today store secid true env).store
        secid = some (.fmtNew (fmt today) (.ok create_empty_rating))
    ∧ (RatingService.get_rating parse fmt today'
        (RatingService.get_rating parse fmt today store secid true env).store
        secid false env').ratings = create_empty_rating
    ∧ (RatingService.get_rating parse fmt today'
        (RatingService.get_rating parse fmt today store secid true env).store
        secid false env').networkUsed = false := by
  have hfetch : RatingService.get_rating parse fmt today store secid true env
      = RatingService.fetch_and_store fmt today store secid env := by
    unfold RatingService.get_rating
    cases hl : storeLookup store secid with
    | none => simp
    | some e =>
      cases e with
      | fmtNew lu rl =>
        rcases hmiss lu rl hl with h0 | hstale
        · simp [h0]
        · simp [hstale]
      | fmtOld cci => simp
      | fmtOtherDict => simp
      | fmtList l => simp
  have hfr : RatingService.fetch_and_store fmt today store secid env
      = { ratings := create_empty_rating,
          store := storeInsert store secid
            (.fmtNew (fmt today) (.ok create_empty_rating)),
          networkUsed := true } := by
    unfold RatingService.fetch_and_store
    rcases fetch_fail_cases hfail with h | h <;> rw [h]
  have hstale2 : RatingService.is_data_stale parse today' (fmt today) = false := by
    unfold RatingService.is_data_stale
    rw [hfmt]
    simp only [decide_eq_false_iff_not, not_lt, gt_iff_lt]
    omega
  have hres : RatingService.get_rating parse fmt today'
      (storeInsert store secid (.fmtNew (fmt today) (.ok create_empty_rating)))
      secid false env'
      = { ratings := create_empty_rating,
          store := storeInsert store secid
            (.fmtNew (fmt today) (.ok create_empty_rating)),
          networkUsed := false } := by
    unfold RatingService.get_rating
    simp only [storeLookup_insert_self]
    rw [if_pos ⟨hne, hstale2⟩]
    rfl
  rw [hfetch, hfr]
  refine ⟨rfl, storeLookup_insert_self _ _ _, ?_, ?_⟩ <;> rw [hres]

/-- Witness for C1 at concrete inputs (empty cache, HTML download
failure). -/
theorem c1_rating_failure_never_propagates_witness :
    (RatingService.get_rating (fun _ => some 7) (fun _ => "d") 7 [] "X" true
      ⟨HtmlStep.fail, ApiStep.reqFail⟩).ratings = create_empty_rating :=
  (c1_rating_failure_never_propagates (fun _ => some 7) (fun _ => "d") 7 7 []
    "X" ⟨HtmlStep.fail, ApiStep.reqFail⟩ ⟨HtmlStep.fail, ApiStep.reqFail⟩
    (fun lu rl h => nomatch h) (Or.inl rfl) rfl (by decide) (by decide)).1

end Screener

namespace Screener

/-- Counterexample to C7's second half: a cache whose entry for `X`
holds an empty (fresh, new-format) ratings list makes
`get_rating(X, ·, false)` return the empty list to the caller. -/
theorem c7_counterexample_empty_list :
    (RatingService.get_rating (fun _ => some 0) (fun _ => "") 0
      [("X", RatingEntry.fmtNew "d" (JList.ok []))] "X" false
      ⟨HtmlStep.fail, ApiStep.reqFail⟩).ratings = [] := by
  rfl

/-- A cached rating entry that does not itself store an empty (or
non-list) ratings value. -/
def goodRatingEntry : RatingEntry → Prop
  | .fmtNew _ rl => ∃ l, rl = .ok l ∧ l ≠ []
  | .fmtOld cci => ∃ l, cci = .ok l ∧ l ≠ []
  | .fmtOtherDict => True
  | .fmtList l => l ≠ []

/-- C7 (amended): a non-forced lookup with no cached entry performs no
network access and returns exactly the one-element placeholder; and
whenever the cache does not itself hold an empty or non-list ratings
value under `secid` — in particular whenever `secid` is absent —
`get_rating` never returns an empty list.  (As stated over every cache
state the original claim fails: a cached empty ratings list is returned
verbatim, see the counterexample.) -/
theorem c7_missing_entry_placeholder :
    (∀ (parse : String → Option ℤ) (fmt : ℤ → String) (today : ℤ)
        (store : RatingStore) (secid : String) (env : FetchEnv),
      storeLookup store secid = none →
      RatingService.get_rating parse fmt today store secid false env
        = { ratings := create_empty_rating, store := store, networkUsed := false })
    ∧ (∀ (parse : String → Option ℤ) (fmt : ℤ → String) (today : ℤ)
        (store : RatingStore) (secid : String) (force : Bool) (env : FetchEnv),
      (∀ e, storeLookup store secid = some e → goodRatingEntry e) →
      (RatingService.get_rating parse fmt today store secid force env).ratings
        ≠ []) := by
  constructor
  · intro parse fmt today store secid env hl
    unfold RatingService.get_rating
    simp only [hl]
    rfl
  · intro parse fmt today store secid force env hgood
    unfold RatingService.get_rating
    split
    next lu rl heq =>
      obtain ⟨l, hrl, hlne⟩ := hgood _ heq
      subst hrl
      by_cases hc : lu ≠ "" ∧ RatingService.is_data_stale parse today lu = false
      · rw [if_pos hc]
        simpa [coerceList] using hlne
      · rw [if_neg hc]
        cases force with
        | false => simpa [coerceList] using hlne
        | true => simpa using fetch_and_store_ratings_ne_nil fmt today store secid env
    next cci heq =>
      obtain ⟨l, hrl, hlne⟩ := hgood _ heq
      subst hrl
      cases force with
      | false => simpa [coerceList] using hlne
      | true => simpa using fetch_and_store_ratings_ne_nil fmt today store secid env
    next heq =>
      cases force with
      | false => simp [create_empty_rating]
      | true => simpa using fetch_and_store_ratings_ne_nil fmt today store secid env
    next l heq =>
      have hlne := hgood _ heq
      cases force with
      | false => simpa using hlne
      | true => simpa using fetch_and_store_ratings_ne_nil fmt today store secid env
    next heq =>
      cases force with
      | false => simp [create_empty_rating]
      | true => simpa using fetch_and_store_ratings_ne_nil fmt today store secid env

/-- Witness for the amended C7 at concrete inputs (empty cache). -/
theorem c7_missing_entry_placeholder_witness :
    RatingService.get_rating (fun _ => some 0) (fun _ => "d") 0 [] "X" false
      ⟨HtmlStep.fail, ApiStep.reqFail⟩
      = { ratings := create_empty_rating, store := [], networkUsed := false } :=
  c7_missing_entry_placeholder.1 (fun _ => some 0) (fun _ => "d") 0 [] "X"
    ⟨HtmlStep.fail, ApiStep.reqFail⟩ rfl

end Screener

namespace Screener

/-! ### Coupon service (coupon_service.py) -/

/-- One entry of the `bonds` map of `coupons_data.json`
(`last_updated = ""` models a missing `last_updated` key, matching
`bond_data.get("last_updated", "")`). -/
structure BondCouponEntry where
  last_updated : String := ""
  amortizations : List Dict := []
  coupons : List Dict := []
  offers : List Dict := []
  deriving DecidableEq

abbrev CouponStore := List (String × BondCouponEntry)

/-- `CouponService._clean_coupon_fields`: strip the fields duplicated
into the amortization entries. -/
def fields_to_remove : List String :=
  ["isin", "name", "issuevalue", "primary_boardid", "coupon_type", "secid"]

def clean_coupon_fields (coupon : Dict) : Dict :=
  coupon.filter (fun p => decide (p.1 ∉ fields_to_remove))

/-- The in-memory backward-compatibility migration applied on a fresh
cache hit: when the amortizations carry no `coupon_type` but the first
coupon does (truthily), back-fill it into each amortization entry that
lacks the key.  This does not touch the stored file. -/
def migrateAmortizations (coupons amortizations : List Dict) : List Dict :=
  if coupons ≠ [] ∧ amortizations ≠ [] then
    let has_ct := amortizations.any (fun a =>
      match dictGet a "coupon_type" with
      | some v => decide (v ≠ CVal.null)
      | none => false)
    if has_ct then amortizations
    else
      match coupons.head? with
      | none => amortizations
      | some c0 =>
        match dictGet c0 "coupon_type" with
        | none => amortizations
        | some ct =>
          if truthy ct then
            amortizations.map (fun a =>
              if dictHas a "coupon_type" then a else dictSet a "coupon_type" ct)
          else amortizations
  else amortizations

/-- The tabularized result of `_download_coupons_from_moex` (the
network/JSON layer passed in as an oracle: `Except.error` models a
download or JSON failure, which the source raises as `RuntimeError`). -/
structure FreshCouponData where
  amortizations : List Dict
  coupons : List Dict
  offers : List Dict
  deriving DecidableEq

/-- The download branch of `get_coupons`: on failure fall back to the
cached (possibly stale) entry with cleaned coupons, else propagate; on
success classify, tag amortizations, clean coupons, persist under
today's date. -/
def CouponService.get_coupons_download (fmt : ℤ → String) (today : ℤ)
    (store : CouponStore) (secid : String)
    (download : Except Unit FreshCouponData) :
    Except Unit (BondCouponEntry × CouponStore) :=
  match download with
  | .error _ =>
      match storeLookup store secid with
      | some cached =>
          .ok ({ cached with coupons := cached.coupons.map clean_coupon_fields },
            store)
      | none => .error ()
  | .ok fresh =>
      let coupon_type := detect_coupon_type fresh.coupons
      let amorts := fresh.amortizations.map
        (fun a => dictSet a "coupon_type" (CVal.str coupon_type))
      let cleaned := fresh.coupons.map clean_coupon_fields
      let entry : BondCouponEntry :=
        { last_updated := fmt today, amortizations := amorts,
          coupons := cleaned, offers := fresh.offers }
      .ok (entry, storeInsert store secid entry)

/-- `CouponService.get_coupons`: return the cached entry when present,
fresh and not forced (after the in-memory migration and coupon
cleaning, without touching the store); otherwise download. -/
def CouponService.get_coupons (parse : String → Option ℤ) (fmt : ℤ → String)
    (today : ℤ) (store : CouponStore) (secid : String) (force_refresh : Bool)
    (download : Except Unit FreshCouponData) :
    Except Unit (BondCouponEntry × CouponStore) :=
  match storeLookup store secid, force_refresh with
  | some bond_data, false =>
      if bond_data.last_updated ≠ "" ∧
          CouponService.is_data_stale parse today bond_data.last_updated = false
      then
        .ok ({ bond_data with
                amortizations :=
                  migrateAmortizations bond_data.coupons bond_data.amortizations,
                coupons := bond_data.coupons.map clean_coupon_fields },
          store)
      else CouponService.get_coupons_download fmt today store secid download
  | some _, true => CouponService.get_coupons_download fmt today store secid download
  | none, false => CouponService.get_coupons_download fmt today store secid download
  | none, true => CouponService.get_coupons_download fmt today store secid download

/-- The download path is taken: forced, missing, or not fresh. -/
def couponDownloadPath (parse : String → Option ℤ) (today : ℤ)
    (store : CouponStore) (secid : String) (force_refresh : Bool) : Prop :=
  force_refresh = true ∨
  storeLookup store secid = none ∨
  ∀ e, storeLookup store secid = some e →
    (e.last_updated = "" ∨
      CouponService.is_data_stale parse today e.last_updated = true)

end Screener

namespace Screener

/-- C2: whenever `get_coupons` takes the download path and the origin
fetch fails, a cached entry — even a stale one — is returned with the
duplicate-field stripping applied to its coupons and the stored cache
left unchanged; with no cached entry the failure propagates. -/
theorem c2_download_failure_fallback
    (parse : String → Option ℤ) (fmt : ℤ → String) (today : ℤ)
    (store : CouponStore) (secid : String) (force_refresh : Bool)
    (hdl : couponDownloadPath parse today store secid force_refresh) :
    (∀ e, storeLookup store secid = some e →
      CouponService.get_coupons parse fmt today store secid force_refresh
          (.error ())
        = .ok ({ e with coupons := e.coupons.map clean_coupon_fields }, store))
    ∧ (storeLookup store secid = none →
      CouponService.get_coupons parse fmt today store secid force_refresh
          (.error ())
        = .error ()) := by
  constructor
  · intro e he
    unfold CouponService.get_coupons
    cases force_refresh with
    | true =>
      simp only [he]
      unfold CouponService.get_coupons_download
      simp only [he]
    | false =>
      have hcond : ¬ (e.last_updated ≠ "" ∧
          CouponService.is_data_stale parse today e.last_updated = false) := by
        rcases hdl with hf | hn | hst
        · exact absurd hf (by simp)
        · rw [he] at hn; exact absurd hn (by simp)
        · rcases hst e he with h | h
          · simp [h]
          · simp [h]
      simp only [he]
      rw [if_neg hcond]
      unfold CouponService.get_coupons_download
      simp only [he]
  · intro hn
    unfold CouponService.get_coupons
    cases force_refresh with
    | true =>
      simp only [hn]
      unfold CouponService.get_coupons_download
      simp only [hn]
    | false =>
      simp only [hn]
      unfold CouponService.get_coupons_download
      simp only [hn]

/-- Witness for C2: a cached entry with no refresh date (download path)
is returned with cleaned coupons when the download fails, and the store
is unchanged. -/
theorem c2_download_failure_fallback_witness :
    CouponService.get_coupons (fun _ => some 0) (fun _ => "") 0
      [("X", { last_updated := "",
               coupons := [[("isin", CVal.str "i"), ("q", CVal.num 3)]] })]
      "X" false (.error ())
      = .ok
          ({ last_updated := "",
             amortizations := [],
             coupons := List.map clean_coupon_fields
               [[("isin", CVal.str "i"), ("q", CVal.num 3)]],
             offers := [] },
           [("X", { last_updated := "",
                    coupons := [[("isin", CVal.str "i"), ("q", CVal.num 3)]] })]) := by
  refine (c2_download_failure_fallback (fun _ => some 0) (fun _ => "") 0
    [("X", { last_updated := "",
             coupons := [[("isin", CVal.str "i"), ("q", CVal.num 3)]] })]
    "X" false (Or.inr (Or.inr ?_))).1 _ rfl
  intro e he
  have h : ({ last_updated := "",
              coupons := [[("isin", CVal.str "i"), ("q", CVal.num 3)]] }
      : BondCouponEntry) = e := by
    injection he
  rw [← h]
  exact Or.inl rfl

end Screener

namespace Screener

/-! ### Cache-file loading and corruption handling (C8)

`FileState` describes the durable file as the reader finds it: absent,
readable with parsed contents, or corrupt/unreadable (`orjson.
JSONDecodeError` / `IOError`).  The `Bool` component records whether the
loader rewrote the file. -/

inductive FileState (α : Type) where
  | absent
  | valid (d : α)
  | corrupt
  deriving DecidableEq

/-- `RatingService._load_rating_data` (first load): an absent file is
created empty; a corrupt or unreadable file is caught, reinitialized to
empty and persisted immediately; the loader never raises. -/
def RatingService.load_rating_data (fs : FileState RatingStore) :
    RatingStore × Bool :=
  match fs with
  | .absent => ([], true)
  | .valid d => (d, false)
  | .corrupt => ([], true)

abbrev EmitentStore := List (String × Dict)

/-- `EmitentService._load_emitent_data` (first load): same recovery
policy as the rating cache. -/
def EmitentService.load_emitent_data (fs : FileState EmitentStore) :
    EmitentStore × Bool :=
  match fs with
  | .absent => ([], true)
  | .valid d => (d, false)
  | .corrupt => ([], true)

/-- `CouponService._read_data`: an absent file yields the empty store,
but `orjson.loads` is not guarded — a corrupt file raises to the
caller. -/
def CouponService.read_data (fs : FileState CouponStore) :
    Except Unit CouponStore :=
  match fs with
  | .absent => .ok []
  | .valid d => .ok d
  | .corrupt => .error ()

/-- Counterexample to C8: reading a corrupted coupon cache file raises
to the caller (`CouponService._read_data` has no corruption handler),
so the claim does not hold for all three caches. -/
theorem c8_counterexample_coupon_corrupt :
    CouponService.read_data (FileState.corrupt : FileState CouponStore)
      = .error () := rfl

/-- C8 (amended): the rating cache and the issuer cache recover from a
corrupted or unparseable file by reinitializing to empty and persisting
immediately, never raising; the coupon cache read, by contrast,
propagates the parse error to its caller (valid files are returned
as-is everywhere). -/
theorem c8_cache_corruption_recovery :
    RatingService.load_rating_data .corrupt = ([], true)
    ∧ (∀ d, RatingService.load_rating_data (.valid d) = (d, false))
    ∧ RatingService.load_rating_data .absent = ([], true)
    ∧ EmitentService.load_emitent_data .corrupt = ([], true)
    ∧ (∀ d, EmitentService.load_emitent_data (.valid d) = (d, false))
    ∧ EmitentService.load_emitent_data .absent = ([], true)
    ∧ (∀ d, CouponService.read_data (.valid d) = .ok d)
    ∧ CouponService.read_data .absent = .ok []
    ∧ CouponService.read_data .corrupt = .error () :=
  ⟨rfl, fun _ => rfl, rfl, rfl, fun _ => rfl, rfl, fun _ => rfl, rfl, rfl⟩

end Screener

namespace Screener

/-! ### Aggregator / DataLoader._load_bonds_data (data_loader.py)

The static-attributes rows arrive already zipped into typed records
(`SecRow`); the coupon-loader side cache, the ratings map and the
bond-type map are oracles keyed by security code; `pyFloat` abstracts
Python `float(·)` on strings. -/

/-- One row of the `securities` section, restricted to the fields the
list-item construction reads (a missing key is `none`). -/
structure SecRow where
  SECID : Option String := none
  BOARDID : Option String := none
  SHORTNAME : Option String := none
  COUPONPERCENT : Option ℚ := none
  MATDATE : Option ℤ := none
  STATUS : Option String := none
  FACEVALUE : Option ℚ := none
  PREVPRICE : Option ℚ := none
  YIELDATPREVWAPRICE : Option ℚ := none
  NEXTCOUPON : Option ℤ := none
  BOARDNAME : Option String := none
  CALLOPTIONDATE : Option ℤ := none
  PUTOPTIONDATE : Option ℤ := none
  ACCRUEDINT : Option ℚ := none
  COUPONPERIOD : Option ℤ := none
  CURRENCYID : Option String := none
  FACEUNIT : Option String := none
  LISTLEVEL : Option ℤ := none
  deriving DecidableEq

/-- The `BondListItem(**list_item_data)` construction for one row. -/
def baseItem (s b n : String) (r : SecRow) : BondListItem :=
  { SECID := s, BOARDID := b, SHORTNAME := n,
    COUPONPERCENT := r.COUPONPERCENT, MATDATE := r.MATDATE, STATUS := r.STATUS,
    FACEVALUE := r.FACEVALUE, PREVPRICE := r.PREVPRICE,
    YIELDATPREVWAPRICE := r.YIELDATPREVWAPRICE, NEXTCOUPON := r.NEXTCOUPON,
    BOARDNAME := r.BOARDNAME, CALLOPTIONDATE := r.CALLOPTIONDATE,
    PUTOPTIONDATE := r.PUTOPTIONDATE, ACCRUEDINT := r.ACCRUEDINT,
    COUPONPERIOD := r.COUPONPERIOD, CURRENCYID := r.CURRENCYID,
    FACEUNIT := r.FACEUNIT, LISTLEVEL := r.LISTLEVEL }

/-- `coupon_loader.get_nearest_coupon_value` enrichment. -/
def applyCouponValOracle (cv : String → Option ℚ) (s : String)
    (item : BondListItem) : BondListItem :=
  match cv s with
  | some v => { item with COUPONVALUE := some v }
  | none => item

/-- `coupon_loader.get_coupon_type` enrichment. -/
def applyCouponTypeOracle (ct : String → Option String) (s : String)
    (item : BondListItem) : BondListItem :=
  match ct s with
  | some t => { item with COUPON_TYPE := some t }
  | none => item

/-- Construction of the list item from one securities row; `none` when
pydantic validation fails (a required string field is missing) and the
loop continues with the next row. -/
def mkListItem (cv : String → Option ℚ) (ct : String → Option String)
    (r : SecRow) : Option BondListItem :=
  match r.SECID, r.BOARDID, r.SHORTNAME with
  | some s, some b, some n =>
      some (applyCouponTypeOracle ct s (applyCouponValOracle cv s (baseItem s b n r)))
  | none, _, _ => none
  | some _, none, _ => none
  | some _, some _, none => none

/-- The list view built by the securities pass: one appended record per
successfully parsed row, in row order. -/
def buildBondsList (cv : String → Option ℚ) (ct : String → Option String)
    (rows : List SecRow) : List BondListItem :=
  rows.filterMap (mkListItem cv ct)

/-- The key set of `details_map`: the truthy security codes of the
successfully parsed rows. -/
def detailKeys (cv : String → Option ℚ) (ct : String → Option String)
    (rows : List SecRow) : List String :=
  rows.foldl (fun ks r =>
    match mkListItem cv ct r, r.SECID with
    | some _, some s => if s ≠ "" ∧ s ∉ ks then ks ++ [s] else ks
    | _, _ => ks) []

/-- A JSON value found under `"DURATION"` in a market-data row. -/
inductive MdVal where
  | null
  | num (q : ℚ)
  | str (s : String)
  deriving DecidableEq

/-- One `marketdata` row (the fields the join reads). -/
structure MdRow where
  SECID : Option String := none
  BOARDID : Option String := none
  TRADINGSTATUS : Option String := none
  DURATION : Option MdVal := none
  deriving DecidableEq

/-- One `marketdata_yields` row (the fields the join reads);
`DURATIONWAPRICE = none` covers both an absent key and `null`. -/
structure YieldRow where
  SECID : Option String := none
  DURATIONWAPRICE : Option ℚ := none
  deriving DecidableEq

/-- `str.lower()` character-wise. -/
def lowerStr (s : String) : String := ⟨s.data.map Char.toLower⟩

/-- The `DURATION` coercion of the market-data join: `None` stays
unset, numbers are taken as-is, strings are stripped, the textual null
markers rejected, and otherwise parsed as a float (`pyFloat`, `none` on
`ValueError`). -/
def parseDurationVal (pyFloat : String → Option ℚ) : MdVal → Option ℚ
  | .null => none
  | .num q => some q
  | .str s =>
    if s.trim = "" ∨ lowerStr s.trim ∈ ["nan", "none", "null", "n/a"] then none
    else pyFloat s.trim

/-- The in-place update a market-data row applies to its matched
record: trading status only when truthy, `DURATION` only when the
`"DURATION"` key is present. -/
def updMd (pyFloat : String → Option ℚ) (row : MdRow) (b : BondListItem) :
    BondListItem :=
  match row.TRADINGSTATUS, row.DURATION with
  | none, none => b
  | none, some v => { b with DURATION := parseDurationVal pyFloat v }
  | some t, none => if t ≠ "" then { b with TRADINGSTATUS := some t } else b
  | some t, some v =>
      if t ≠ "" then
        { b with TRADINGSTATUS := some t, DURATION := parseDurationVal pyFloat v }
      else { b with DURATION := parseDurationVal pyFloat v }

/-- Mutate the first element satisfying `p` (the linear scans of the
join loops mutate the found record in place and break). -/
def updateFirst {α : Type} (p : α → Bool) (f : α → α) : List α → List α
  | [] => []
  | a :: rest => if p a then f a :: rest else a :: updateFirst p f rest

/-- The market-data join for one row: skipped unless the row's security
code is truthy and known to the detail map; exact security+board match
preferred, else first record with the security code; no match, no
update. -/
def applyMdRow (pyFloat : String → Option ℚ) (keys : List String)
    (bonds : List BondListItem) (row : MdRow) : List BondListItem :=
  match row.SECID with
  | none => bonds
  | some s =>
    if s ≠ "" ∧ s ∈ keys then
      match row.BOARDID with
      | some bid =>
        if bid ≠ "" ∧ bonds.any (fun x => decide (x.SECID = s ∧ x.BOARDID = bid))
        then
          updateFirst (fun x => decide (x.SECID = s ∧ x.BOARDID = bid))
            (updMd pyFloat row) bonds
        else updateFirst (fun x => decide (x.SECID = s)) (updMd pyFloat row) bonds
      | none => updateFirst (fun x => decide (x.SECID = s)) (updMd pyFloat row) bonds
    else bonds

/-- The yield-curve join for one row: sets only `DURATIONWAPRICE`, only
on the first record with the security code, and only when not already
set. -/
def applyYieldRow (keys : List String) (bonds : List BondListItem)
    (row : YieldRow) : List BondListItem :=
  match row.SECID with
  | none => bonds
  | some s =>
    if s ≠ "" ∧ s ∈ keys then
      match row.DURATIONWAPRICE with
      | none => bonds
      | some v =>
        updateFirst (fun x => decide (x.SECID = s))
          (fun x => if x.DURATIONWAPRICE = none
            then { x with DURATIONWAPRICE := some v } else x) bonds
    else bonds

/-- The ratings side-table join (`_add_ratings_to_bonds`). -/
def applyRatingsMap (rmap : String → Option (String × Option String))
    (b : BondListItem) : BondListItem :=
  match rmap b.SECID with
  | some (ag, lv) => { b with RATING_AGENCY := some ag, RATING_LEVEL := lv }
  | none => b

/-- The bond-type side-table join (`_add_bondtypes_to_bonds`). -/
def applyBondtypeMap (bmap : String → Option String) (b : BondListItem) :
    BondListItem :=
  match bmap b.SECID with
  | some t => { b with BONDTYPE := some t }
  | none => b

/-- `DataLoader._load_bonds_data`, list-view part: securities pass,
market-data join, yield join, ratings and bond-type joins, in source
order. -/
def load_bonds_data (pyFloat : String → Option ℚ)
    (cv : String → Option ℚ) (ct : String → Option String)
    (rmap : String → Option (String × Option String))
    (bmap : String → Option String)
    (secRows : List SecRow) (mdRows : List MdRow) (yieldRows : List YieldRow) :
    List BondListItem :=
  let bonds0 := buildBondsList cv ct secRows
  let keys := detailKeys cv ct secRows
  let bonds1 := mdRows.foldl (applyMdRow pyFloat keys) bonds0
  let bonds2 := yieldRows.foldl (applyYieldRow keys) bonds1
  (bonds2.map (applyRatingsMap rmap)).map (applyBondtypeMap bmap)

end Screener

namespace Screener

/-! ### Structural lemmas for the joins -/

theorem length_updateFirst {α : Type} (p : α → Bool) (f : α → α) :
    ∀ l : List α, (updateFirst p f l).length = l.length
  | [] => rfl
  | a :: rest => by
    rw [updateFirst]
    by_cases hpa : p a
    · rw [if_pos hpa]
      rfl
    · rw [if_neg hpa]
      simp [length_updateFirst p f rest]

theorem countP_updateFirst {α : Type} (p : α → Bool) (f : α → α) (q : α → Bool)
    (hq : ∀ a, q (f a) = q a) :
    ∀ l : List α, (updateFirst p f l).countP q = l.countP q
  | [] => rfl
  | a :: rest => by
    rw [updateFirst]
    by_cases hpa : p a
    · rw [if_pos hpa, List.countP_cons, List.countP_cons, hq]
    · rw [if_neg hpa, List.countP_cons, List.countP_cons,
        countP_updateFirst p f q hq rest]

theorem applyCouponValOracle_SECID (cv : String → Option ℚ) (s : String)
    (item : BondListItem) : (applyCouponValOracle cv s item).SECID = item.SECID := by
  unfold applyCouponValOracle
  cases cv s <;> rfl

theorem applyCouponTypeOracle_SECID (ct : String → Option String) (s : String)
    (item : BondListItem) : (applyCouponTypeOracle ct s item).SECID = item.SECID := by
  unfold applyCouponTypeOracle
  cases ct s <;> rfl

theorem mkListItem_SECID {cv : String → Option ℚ} {ct : String → Option String}
    {r : SecRow} {item : BondListItem}
    (h : mkListItem cv ct r = some item) : r.SECID = some item.SECID := by
  unfold mkListItem at h
  split at h
  · rename_i s b n hs hb hn
    injection h with h2
    rw [hs]
    rw [← h2, applyCouponTypeOracle_SECID, applyCouponValOracle_SECID]
    rfl
  · exact absurd h (by simp)
  · exact absurd h (by simp)
  · exact absurd h (by simp)

theorem updMd_SECID (pyFloat : String → Option ℚ) (row : MdRow)
    (b : BondListItem) : (updMd pyFloat row b).SECID = b.SECID := by
  unfold updMd
  cases row.TRADINGSTATUS with
  | none => cases row.DURATION <;> rfl
  | some t =>
    cases row.DURATION with
    | none => by_cases h : t ≠ "" <;> simp [h]
    | some v => by_cases h : t ≠ "" <;> simp [h]

theorem applyMdRow_cases (pyFloat : String → Option ℚ) (keys : List String)
    (bonds : List BondListItem) (row : MdRow) :
    applyMdRow pyFloat keys bonds row = bonds ∨
    ∃ p, applyMdRow pyFloat keys bonds row
      = updateFirst p (updMd pyFloat row) bonds := by
  obtain ⟨rs, rb, rt, rd⟩ := row
  unfold applyMdRow
  cases rs with
  | none => exact Or.inl rfl
  | some s =>
    dsimp only
    by_cases hk : s ≠ "" ∧ s ∈ keys
    · rw [if_pos hk]
      cases rb with
      | none => exact Or.inr ⟨_, rfl⟩
      | some bid =>
        dsimp only
        by_cases hb : bid ≠ "" ∧
            bonds.any (fun x => decide (x.SECID = s ∧ x.BOARDID = bid)) = true
        · rw [if_pos hb]
          exact Or.inr ⟨_, rfl⟩
        · rw [if_neg hb]
          exact Or.inr ⟨_, rfl⟩
    · rw [if_neg hk]
      exact Or.inl rfl

theorem applyYieldRow_cases (keys : List String) (bonds : List BondListItem)
    (row : YieldRow) :
    applyYieldRow keys bonds row = bonds ∨
    ∃ p v, applyYieldRow keys bonds row
      = updateFirst p (fun x => if x.DURATIONWAPRICE = none
          then { x with DURATIONWAPRICE := some v } else x) bonds := by
  obtain ⟨rs, rd⟩ := row
  unfold applyYieldRow
  cases rs with
  | none => exact Or.inl rfl
  | some s =>
    dsimp only
    by_cases hk : s ≠ "" ∧ s ∈ keys
    · rw [if_pos hk]
      cases rd with
      | none => exact Or.inl rfl
      | some v => exact Or.inr ⟨_, v, rfl⟩
    · rw [if_neg hk]
      exact Or.inl rfl

end Screener

namespace Screener

theorem countP_applyMdRow (pyFloat : String → Option ℚ) (keys : List String)
    (bonds : List BondListItem) (row : MdRow) (q : BondListItem → Bool)
    (hq : ∀ b, q (updMd pyFloat row b) = q b) :
    (applyMdRow pyFloat keys bonds row).countP q = bonds.countP q := by
  rcases applyMdRow_cases pyFloat keys bonds row with h | ⟨p, h⟩
  · rw [h]
  · rw [h, countP_updateFirst _ _ _ hq]

theorem length_applyMdRow (pyFloat : String → Option ℚ) (keys : List String)
    (bonds : List BondListItem) (row : MdRow) :
    (applyMdRow pyFloat keys bonds row).length = bonds.length := by
  rcases applyMdRow_cases pyFloat keys bonds row with h | ⟨p, h⟩
  · rw [h]
  · rw [h, length_updateFirst]

theorem countP_applyYieldRow (keys : List String) (bonds : List BondListItem)
    (row : YieldRow) (q : BondListItem → Bool)
    (hq : ∀ (v : ℚ) (b : BondListItem),
      q (if b.DURATIONWAPRICE = none then { b with DURATIONWAPRICE := some v }
         else b) = q b) :
    (applyYieldRow keys bonds row).countP q = bonds.countP q := by
  rcases applyYieldRow_cases keys bonds row with h | ⟨p, v, h⟩
  · rw [h]
  · rw [h, countP_updateFirst _ _ _ (hq v)]

theorem length_applyYieldRow (keys : List String) (bonds : List BondListItem)
    (row : YieldRow) :
    (applyYieldRow keys bonds row).length = bonds.length := by
  rcases applyYieldRow_cases keys bonds row with h | ⟨p, v, h⟩
  · rw [h]
  · rw [h, length_updateFirst]

theorem applyRatingsMap_SECID (rmap : String → Option (String × Option String))
    (b : BondListItem) : (applyRatingsMap rmap b).SECID = b.SECID := by
  unfold applyRatingsMap
  cases h : rmap b.SECID with
  | none => rfl
  | some p => cases p; rfl

theorem applyBondtypeMap_SECID (bmap : String → Option String)
    (b : BondListItem) : (applyBondtypeMap bmap b).SECID = b.SECID := by
  unfold applyBondtypeMap
  cases bmap b.SECID <;> rfl

theorem countP_map_pres {α : Type} (f : α → α) (q : α → Bool)
    (h : ∀ a, q (f a) = q a) :
    ∀ l : List α, (l.map f).countP q = l.countP q
  | [] => rfl
  | a :: rest => by
    rw [List.map_cons, List.countP_cons, List.countP_cons, h,
      countP_map_pres f q h rest]

theorem countP_foldl_md (pyFloat : String → Option ℚ) (keys : List String)
    (q : BondListItem → Bool)
    (hq : ∀ row b, q (updMd pyFloat row b) = q b) :
    ∀ (rows : List MdRow) (bonds : List BondListItem),
      ((rows.foldl (applyMdRow pyFloat keys) bonds).countP q) = bonds.countP q
  | [], _ => rfl
  | r :: rest, bonds => by
    rw [List.foldl_cons, countP_foldl_md pyFloat keys q hq rest,
      countP_applyMdRow _ _ _ _ _ (hq r)]

theorem length_foldl_md (pyFloat : String → Option ℚ) (keys : List String) :
    ∀ (rows : List MdRow) (bonds : List BondListItem),
      (rows.foldl (applyMdRow pyFloat keys) bonds).length = bonds.length
  | [], _ => rfl
  | r :: rest, bonds => by
    rw [List.foldl_cons, length_foldl_md pyFloat keys rest, length_applyMdRow]

theorem countP_foldl_yield (keys : List String) (q : BondListItem → Bool)
    (hq : ∀ (v : ℚ) (b : BondListItem),
      q (if b.DURATIONWAPRICE = none then { b with DURATIONWAPRICE := some v }
         else b) = q b) :
    ∀ (rows : List YieldRow) (bonds : List BondListItem),
      ((rows.foldl (applyYieldRow keys) bonds).countP q) = bonds.countP q
  | [], _ => rfl
  | r :: rest, bonds => by
    rw [List.foldl_cons, countP_foldl_yield keys q hq rest,
      countP_applyYieldRow _ _ _ _ hq]

theorem length_foldl_yield (keys : List String) :
    ∀ (rows : List YieldRow) (bonds : List BondListItem),
      (rows.foldl (applyYieldRow keys) bonds).length = bonds.length
  | [], _ => rfl
  | r :: rest, bonds => by
    rw [List.foldl_cons, length_foldl_yield keys rest, length_applyYieldRow]

theorem countP_buildBondsList (cv : String → Option ℚ)
    (ct : String → Option String) (s : String) :
    ∀ rows : List SecRow,
      (buildBondsList cv ct rows).countP (fun b => decide (b.SECID = s))
        = rows.countP (fun r =>
            decide (r.SECID = some s) && (mkListItem cv ct r).isSome)
  | [] => rfl
  | r :: rest => by
    unfold buildBondsList
    rw [List.filterMap_cons, List.countP_cons]
    cases hmk : mkListItem cv ct r with
    | none =>
      have := countP_buildBondsList cv ct s rest
      unfold buildBondsList at this
      simp [hmk, this]
    | some item =>
      have := countP_buildBondsList cv ct s rest
      unfold buildBondsList at this
      have hsec := mkListItem_SECID hmk
      rw [List.countP_cons, this]
      simp [hmk, hsec]

theorem length_buildBondsList (cv : String → Option ℚ)
    (ct : String → Option String) :
    ∀ rows : List SecRow,
      (buildBondsList cv ct rows).length
        = (rows.filter (fun r => (mkListItem cv ct r).isSome)).length
  | [] => rfl
  | r :: rest => by
    unfold buildBondsList
    rw [List.filterMap_cons]
    cases hmk : mkListItem cv ct r with
    | none =>
      have := length_buildBondsList cv ct rest
      unfold buildBondsList at this
      simp [List.filter_cons, hmk, this]
    | some item =>
      have := length_buildBondsList cv ct rest
      unfold buildBondsList at this
      simp [List.filter_cons, hmk, this]

end Screener

namespace Screener

/-- Counterexample to C9: two static-attributes rows with the same
security code (two board codes) produce two ListRecords for that code
in the rebuilt list view, not one. -/
theorem c9_counterexample_duplicate_secid :
    ((load_bonds_data (fun _ => none) (fun _ => none) (fun _ => none)
        (fun _ => none) (fun _ => none)
        [{ SECID := some "S", BOARDID := some "B1", SHORTNAME := some "N" },
         { SECID := some "S", BOARDID := some "B2", SHORTNAME := some "N" }]
        [] []).filter (fun b => decide (b.SECID = "S"))).length = 2 := by
  rfl

/-- C9 (amended): every snapshot rebuild produces exactly one
ListRecord per successfully validated static-attributes row — so a
security code occurring in several rows (for example with several board
codes) yields as many ListRecords as it has valid rows, and exactly one
when it has exactly one.  The market-data, yield, rating and bond-type
joins never add or remove records. -/
theorem c9_one_record_per_static_row
    (pyFloat : String → Option ℚ) (cv : String → Option ℚ)
    (ct : String → Option String)
    (rmap : String → Option (String × Option String))
    (bmap : String → Option String)
    (secRows : List SecRow) (mdRows : List MdRow) (yieldRows : List YieldRow) :
    (load_bonds_data pyFloat cv ct rmap bmap secRows mdRows yieldRows).length
      = (secRows.filter (fun r => (mkListItem cv ct r).isSome)).length
    ∧ ∀ s : String,
      ((load_bonds_data pyFloat cv ct rmap bmap secRows mdRows yieldRows).filter
          (fun b => decide (b.SECID = s))).length
        = (secRows.filter (fun r =>
            decide (r.SECID = some s) && (mkListItem cv ct r).isSome)).length := by
  constructor
  · unfold load_bonds_data
    rw [List.length_map, List.length_map, length_foldl_yield, length_foldl_md,
      length_buildBondsList]
  · intro s
    have hqmd : ∀ (row : MdRow) (b : BondListItem),
        decide ((updMd pyFloat row b).SECID = s) = decide (b.SECID = s) :=
      fun row b => by rw [updMd_SECID]
    have hqy : ∀ (v : ℚ) (b : BondListItem),
        decide ((if b.DURATIONWAPRICE = none
            then { b with DURATIONWAPRICE := some v } else b).SECID = s)
          = decide (b.SECID = s) :=
      fun v b => by by_cases h : b.DURATIONWAPRICE = none <;> simp [h]
    have hqr : ∀ b : BondListItem,
        decide ((applyRatingsMap rmap b).SECID = s) = decide (b.SECID = s) :=
      fun b => by rw [applyRatingsMap_SECID]
    have hqb : ∀ b : BondListItem,
        decide ((applyBondtypeMap bmap b).SECID = s) = decide (b.SECID = s) :=
      fun b => by rw [applyBondtypeMap_SECID]
    rw [← List.countP_eq_length_filter, ← List.countP_eq_length_filter]
    unfold load_bonds_data
    rw [countP_map_pres _ _ hqb, countP_map_pres _ _ hqr,
      countP_foldl_yield _ _ hqy, countP_foldl_md _ _ _ hqmd,
      countP_buildBondsList]

end Screener

namespace Screener

/-- The index of the first element satisfying `p` ("first record in
list order"). -/
def firstIdx? {α : Type} (p : α → Bool) : List α → Option ℕ
  | [] => none
  | a :: rest => if p a then some 0 else (firstIdx? p rest).map (· + 1)

theorem firstIdx?_isSome_of_any {α : Type} {p : α → Bool} :
    ∀ {l : List α}, l.any p = true → ∃ i, firstIdx? p l = some i := by
  intro l
  induction l with
  | nil => intro h; simp at h
  | cons a t ih =>
    intro h
    rw [firstIdx?]
    by_cases hpa : p a
    · exact ⟨0, by rw [if_pos hpa]⟩
    · rw [List.any_cons] at h
      simp only [hpa, Bool.false_or] at h
      obtain ⟨i, hi⟩ := ih h
      exact ⟨i + 1, by rw [if_neg hpa, hi]; rfl⟩

theorem updateFirst_eq_set {α : Type} (p : α → Bool) (f : α → α) :
    ∀ (l : List α) (i : ℕ), firstIdx? p l = some i →
      ∃ b0, l.get? i = some b0 ∧ p b0 = true ∧
        updateFirst p f l = l.set i (f b0) := by
  intro l
  induction l with
  | nil => intro i h; cases h
  | cons a t ih =>
    intro i h
    rw [firstIdx?] at h
    by_cases hpa : p a
    · rw [if_pos hpa] at h
      injection h with h0
      subst h0
      exact ⟨a, rfl, hpa, by rw [updateFirst, if_pos hpa]; rfl⟩
    · rw [if_neg hpa] at h
      obtain ⟨j, hj, rfl⟩ := Option.map_eq_some'.mp h
      obtain ⟨b0, hget, hp, heq⟩ := ih j hj
      refine ⟨b0, by simpa using hget, hp, ?_⟩
      rw [updateFirst, if_neg hpa, heq]
      rfl

theorem get?_updateFirst {α : Type} (p : α → Bool) (f : α → α) :
    ∀ (l : List α) (i : ℕ) (b1 : α), (updateFirst p f l).get? i = some b1 →
      ∃ b0, l.get? i = some b0 ∧ (b1 = b0 ∨ b1 = f b0) := by
  intro l
  induction l with
  | nil => intro i b1 h; cases h
  | cons a t ih =>
    intro i b1 h
    rw [updateFirst] at h
    by_cases hpa : p a
    · rw [if_pos hpa] at h
      cases i with
      | zero =>
        injection h with h0
        exact ⟨a, rfl, Or.inr h0.symm⟩
      | succ j =>
        exact ⟨b1, h, Or.inl rfl⟩
    · rw [if_neg hpa] at h
      cases i with
      | zero =>
        injection h with h0
        exact ⟨a, rfl, Or.inl h0.symm⟩
      | succ j =>
        obtain ⟨b0, hget, hor⟩ := ih j b1 h
        exact ⟨b0, hget, hor⟩

theorem updMd_shape (pyFloat : String → Option ℚ) (row : MdRow)
    (b : BondListItem) :
    ∃ ts d, updMd pyFloat row b = { b with TRADINGSTATUS := ts, DURATION := d } := by
  obtain ⟨rs, rb, rt, rd⟩ := row
  cases rt with
  | none =>
    cases rd with
    | none => exact ⟨b.TRADINGSTATUS, b.DURATION, rfl⟩
    | some v => exact ⟨b.TRADINGSTATUS, parseDurationVal pyFloat v, rfl⟩
  | some t =>
    by_cases h : t ≠ ""
    · cases rd with
      | none =>
        refine ⟨some t, b.DURATION, ?_⟩
        simp [updMd, h]
      | some v =>
        refine ⟨some t, parseDurationVal pyFloat v, ?_⟩
        simp [updMd, h]
    · cases rd with
      | none =>
        refine ⟨b.TRADINGSTATUS, b.DURATION, ?_⟩
        simp [updMd, h]
      | some v =>
        refine ⟨b.TRADINGSTATUS, parseDurationVal pyFloat v, ?_⟩
        simp [updMd, h]

theorem updMd_tradingstatus_preserved (pyFloat : String → Option ℚ)
    (row : MdRow) (b : BondListItem)
    (h : ¬ ∃ t, row.TRADINGSTATUS = some t ∧ t ≠ "") :
    (updMd pyFloat row b).TRADINGSTATUS = b.TRADINGSTATUS := by
  obtain ⟨rs, rb, rt, rd⟩ := row
  cases rt with
  | none => cases rd <;> rfl
  | some t =>
    have ht : ¬ t ≠ "" := fun hne => h ⟨t, rfl, hne⟩
    cases rd with
    | none => simp [updMd, ht]
    | some v => simp [updMd, ht]

theorem updMd_duration_preserved (pyFloat : String → Option ℚ)
    (row : MdRow) (b : BondListItem) (h : row.DURATION = none) :
    (updMd pyFloat row b).DURATION = b.DURATION := by
  obtain ⟨rs, rb, rt, rd⟩ := row
  have hd : rd = none := h
  subst hd
  cases rt with
  | none => rfl
  | some t => by_cases ht : t ≠ "" <;> simp [updMd, ht]

end Screener

namespace Screener

/-- C5: a market-data row (with truthy security code known to the
detail map, and at least one list record carrying that code) updates
exactly one ListRecord — the result is the input list with a single
position replaced — namely the first exact security+board match when
one exists (and the row's board code is truthy), otherwise the first
record with the security code.  The update writes only the trading
status (and only when the row's status is non-empty) and the DURATION
field (only when the row carries a `DURATION` key).  A yield-curve row
changes at most the distinct `DURATIONWAPRICE` field of any record,
never `DURATION`, and never overwrites an already-set value. -/
theorem c5_market_data_join
    (pyFloat : String → Option ℚ) (keys : List String) (row : MdRow)
    (bonds : List BondListItem) (s : String)
    (hs : row.SECID = some s) (hs1 : s ≠ "") (hk : s ∈ keys)
    (hex : bonds.any (fun x => decide (x.SECID = s)) = true) :
    (∃ i b0, bonds.get? i = some b0 ∧
      applyMdRow pyFloat keys bonds row = bonds.set i (updMd pyFloat row b0) ∧
      ((∃ bid, row.BOARDID = some bid ∧ bid ≠ "" ∧
          firstIdx? (fun x => decide (x.SECID = s ∧ x.BOARDID = bid)) bonds
            = some i)
        ∨ ((∀ bid, row.BOARDID = some bid → bid ≠ "" →
              bonds.any (fun x => decide (x.SECID = s ∧ x.BOARDID = bid)) = false)
            ∧ firstIdx? (fun x => decide (x.SECID = s)) bonds = some i)))
    ∧ (∀ b, ∃ ts d, updMd pyFloat row b
        = { b with TRADINGSTATUS := ts, DURATION := d })
    ∧ (∀ b, (¬ ∃ t, row.TRADINGSTATUS = some t ∧ t ≠ "") →
        (updMd pyFloat row b).TRADINGSTATUS = b.TRADINGSTATUS)
    ∧ (∀ b, row.DURATION = none →
        (updMd pyFloat row b).DURATION = b.DURATION)
    ∧ (∀ (yrow : YieldRow) (bonds2 : List BondListItem) (i : ℕ)
          (b0 b1 : BondListItem),
        bonds2.get? i = some b0 →
        (applyYieldRow keys bonds2 yrow).get? i = some b1 →
        (∃ w, b1 = { b0 with DURATIONWAPRICE := w })
        ∧ b1.DURATION = b0.DURATION
        ∧ (∀ v, b0.DURATIONWAPRICE = some v → b1.DURATIONWAPRICE = some v)) := by
  refine ⟨?_, updMd_shape pyFloat row,
    fun b h => updMd_tradingstatus_preserved pyFloat row b h,
    fun b h => updMd_duration_preserved pyFloat row b h, ?_⟩
  · simp only [applyMdRow, hs]
    rw [if_pos ⟨hs1, hk⟩]
    cases hbid : row.BOARDID with
    | none =>
      dsimp only
      obtain ⟨i, hi⟩ := firstIdx?_isSome_of_any hex
      obtain ⟨b0, hget, hp, heq⟩ :=
        updateFirst_eq_set _ (updMd pyFloat row) bonds i hi
      refine ⟨i, b0, hget, heq, Or.inr ⟨?_, hi⟩⟩
      intro bid hbid2 hbne
      exact absurd hbid2 (by simp)
    | some bid =>
      dsimp only
      by_cases hb2 : bid ≠ "" ∧
          bonds.any (fun x => decide (x.SECID = s ∧ x.BOARDID = bid)) = true
      · rw [if_pos hb2]
        obtain ⟨i, hi⟩ := firstIdx?_isSome_of_any hb2.2
        obtain ⟨b0, hget, hp, heq⟩ :=
          updateFirst_eq_set _ (updMd pyFloat row) bonds i hi
        exact ⟨i, b0, hget, heq, Or.inl ⟨bid, rfl, hb2.1, hi⟩⟩
      · rw [if_neg hb2]
        obtain ⟨i, hi⟩ := firstIdx?_isSome_of_any hex
        obtain ⟨b0, hget, hp, heq⟩ :=
          updateFirst_eq_set _ (updMd pyFloat row) bonds i hi
        refine ⟨i, b0, hget, heq, Or.inr ⟨?_, hi⟩⟩
        intro bid2 hbid2 hbne
        have hbb : bid = bid2 := by injection hbid2
        subst hbb
        rcases Bool.eq_false_or_eq_true
            (bonds.any (fun x => decide (x.SECID = s ∧ x.BOARDID = bid))) with
          ht2 | hf
        · exact absurd ⟨hbne, ht2⟩ hb2
        · exact hf
  · intro yrow bonds2 i b0 b1 hget0 hget1
    rcases applyYieldRow_cases keys bonds2 yrow with h | ⟨p, v, h⟩
    · rw [h, hget0] at hget1
      injection hget1 with hb
      subst hb
      exact ⟨⟨b0.DURATIONWAPRICE, rfl⟩, rfl, fun v2 hv2 => hv2⟩
    · rw [h] at hget1
      obtain ⟨c0, hget0c, hor⟩ := get?_updateFirst _ _ bonds2 i b1 hget1
      rw [hget0] at hget0c
      injection hget0c with hb00
      rw [← hb00] at hor
      rcases hor with heq1 | heq1
      · exact ⟨⟨b0.DURATIONWAPRICE, by rw [heq1]⟩, by rw [heq1],
          fun v2 hv2 => by rw [heq1]; exact hv2⟩
      · by_cases hdw : b0.DURATIONWAPRICE = none
        · refine ⟨⟨some v, ?_⟩, ?_, ?_⟩
          · simp only [heq1]
            rw [if_pos hdw]
          · simp only [heq1]
            rw [if_pos hdw]
          · intro v2 hv2
            rw [hdw] at hv2
            cases hv2
        · refine ⟨⟨b0.DURATIONWAPRICE, ?_⟩, ?_, fun v2 hv2 => ?_⟩
          · simp only [heq1]
            rw [if_neg hdw]
          · simp only [heq1]
            rw [if_neg hdw]
          · simp only [heq1]
            rw [if_neg hdw]
            exact hv2

end Screener

namespace Screener

/-- Two list records for security "S" on boards "B1" and "B2". -/
def c5wBonds : List BondListItem :=
  [{ SECID := "S", BOARDID := "B1", SHORTNAME := "N" },
   { SECID := "S", BOARDID := "B2", SHORTNAME := "N" }]

/-- A market-data row for ("S", "B2") carrying a status and a numeric
duration. -/
def c5wRow : MdRow :=
  { SECID := some "S", BOARDID := some "B2", TRADINGSTATUS := some "T",
    DURATION := some (MdVal.num 5) }

/-- Witness for C5 at the concrete two-record list. -/
theorem c5_market_data_join_witness :
    (∃ i b0, c5wBonds.get? i = some b0 ∧
      applyMdRow (fun _ => none) ["S"] c5wBonds c5wRow
        = c5wBonds.set i (updMd (fun _ => none) c5wRow b0) ∧
      ((∃ bid, c5wRow.BOARDID = some bid ∧ bid ≠ "" ∧
          firstIdx? (fun x => decide (x.SECID = "S" ∧ x.BOARDID = bid)) c5wBonds
            = some i)
        ∨ ((∀ bid, c5wRow.BOARDID = some bid → bid ≠ "" →
              (c5wBonds.any (fun x =>
                decide (x.SECID = "S" ∧ x.BOARDID = bid))) = false)
            ∧ firstIdx? (fun x => decide (x.SECID = "S")) c5wBonds = some i)))
    ∧ (∀ b, ∃ ts d, updMd (fun _ => none) c5wRow b
        = { b with TRADINGSTATUS := ts, DURATION := d })
    ∧ (∀ b, (¬ ∃ t, c5wRow.TRADINGSTATUS = some t ∧ t ≠ "") →
        (updMd (fun _ => none) c5wRow b).TRADINGSTATUS = b.TRADINGSTATUS)
    ∧ (∀ b, c5wRow.DURATION = none →
        (updMd (fun _ => none) c5wRow b).DURATION = b.DURATION)
    ∧ (∀ (yrow : YieldRow) (bonds2 : List BondListItem) (i : ℕ)
          (b0 b1 : BondListItem),
        bonds2.get? i = some b0 →
        (applyYieldRow ["S"] bonds2 yrow).get? i = some b1 →
        (∃ w, b1 = { b0 with DURATIONWAPRICE := w })
        ∧ b1.DURATION = b0.DURATION
        ∧ (∀ v, b0.DURATIONWAPRICE = some v → b1.DURATIONWAPRICE = some v)) :=
  c5_market_data_join (fun _ => none) ["S"] c5wRow c5wBonds "S"
    rfl (by decide) (by decide) (by decide)

end Screener
